import Mathlib

set_option maxHeartbeats 1000000

/-!
# Verification of the Uganda map ETL pipelines

This file embeds the two ETL scripts of the repository — the telecom-fiber
Overpass pipeline (`scripts/fetch-uganda-fiber`) and the secondary-schools
dataset builder — and proves properties of the embedded definitions.

Modelling conventions:
* JavaScript runtime values flowing through the schools pipeline are modelled
  by the `JVal` type; JavaScript numbers are modelled as rationals (`Rat`);
  `null` and `undefined` are merged into `jnull` (the two behave identically
  on every code path modelled here).
* Thrown JavaScript exceptions are modelled with `Except String`.
* `String.prototype.toLowerCase` is modelled as ASCII lowering, and the
  `Number(...)` primitive as a decimal-literal parser; both are runtime
  primitives, not repository code.
* I/O boundaries (the filesystem, `process.env`, `fetch`, `JSON.parse`) are
  passed in explicitly as an environment record, so the sourcing logic can be
  analysed as a pure function of the upstream world.
-/

inductive JVal : Type where
  | jnull : JVal
  | jbool : Bool → JVal
  | jnum : Rat → JVal
  | jstr : String → JVal
  | jarr : List JVal → JVal
  | jobj : List (String × JVal) → JVal

open JVal

/-- JavaScript truthiness (`NaN` does not arise in the model). -/
def truthy : JVal → Bool
  | jnull => false
  | jbool b => b
  | jnum q => q != 0
  | jstr s => s != ""
  | jarr _ => true
  | jobj _ => true

/-- Property read `o[k]` on a value known to be non-nullish: lookup on objects,
`undefined` (i.e. `jnull`) on primitives and arrays. -/
def jGet : JVal → String → JVal
  | jobj fs, k => ((fs.lookup k).getD jnull)
  | _, _ => jnull

/-- Property read `o[k]` that faithfully throws a TypeError on `null`/`undefined`. -/
def jGetE : JVal → String → Except String JVal
  | jnull, _ => .error "TypeError: cannot read properties of null"
  | v, k => .ok (jGet v k)

/-- JavaScript strict string comparison `v === "lit"`. -/
def isStr : JVal → String → Bool
  | jstr s, t => s == t
  | _, _ => false

/-- `typeof v === 'number'`. -/
def JVal.isNum : JVal → Bool
  | jnum _ => true
  | _ => false

/-- `Array.isArray v`. -/
def JVal.isArr : JVal → Bool
  | jarr _ => true
  | _ => false

/-- `a || b`. -/
def jOr (a b : JVal) : JVal := if truthy a then a else b

/-- JavaScript property assignment `o[k] = v` on an object's field list:
an existing key keeps its position, a new key is appended. -/
def setField {α : Type} (o : List (String × α)) (k : String) (v : α) :
    List (String × α) :=
  if o.any (fun kv => kv.1 == k) then
    o.map (fun kv => if kv.1 == k then (k, v) else kv)
  else o ++ [(k, v)]

/-- Object spread `{...v}`: objects copy fields left to right (a repeated key
keeps its first position with its last value, as JavaScript assignment does),
strings and arrays spread to index-keyed fields, other primitives to `{}`. -/
def jSpreadFields : JVal → List (String × JVal)
  | jobj fs => fs.foldl (fun acc kv => setField acc kv.1 kv.2) []
  | jstr s => (s.data.enum.map fun ic => (toString ic.1, jstr (String.mk [ic.2])))
  | jarr xs => (xs.enum.map fun iv => (toString iv.1, iv.2))
  | _ => []

/-- Field lookup in an object's field list, `undefined` when absent. -/
def lkF (fs : List (String × JVal)) (k : String) : JVal :=
  (fs.lookup k).getD jnull

/-- `Object.keys` of an object's field list (first occurrence order; the lists
built by `setFieldJ`/`jSpreadFields` have no duplicates). -/
def jsKeys (fs : List (String × JVal)) : List String :=
  (fs.map Prod.fst).eraseDups

mutual
/-- Coordinate-structure check: every leaf (non-array value) under `v` is a
number. Used to state the all-numeric-leaves invariant. -/
def allNumLeaves : JVal → Bool
  | jnum _ => true
  | jarr xs => allNumLeavesList xs
  | _ => false

def allNumLeavesList : List JVal → Bool
  | [] => true
  | x :: xs => allNumLeaves x && allNumLeavesList xs
end

/-- ASCII case lowering of one character (model of `toLowerCase`). -/
def asciiLower (c : Char) : Char :=
  if 65 ≤ c.toNat ∧ c.toNat ≤ 90 then Char.ofNat (c.toNat + 32) else c

/-- ASCII case lowering of a string (model of `String.prototype.toLowerCase`). -/
def lowerStr (s : String) : String := String.mk (s.data.map asciiLower)

mutual
/-- Model of JavaScript `String(v)` string coercion: arrays join their
stringified elements with commas (`null`/`undefined` elements become empty),
objects render as `[object Object]`. The exact rendering of numbers is a
model of the runtime's number-to-string primitive. -/
def jsToString : JVal → String
  | jnull => "null"
  | jbool b => if b then "true" else "false"
  | jnum q => if q.den = 1 then toString q.num else toString q
  | jstr s => s
  | jarr xs => String.intercalate "," (jsToStringList xs)
  | jobj _ => "[object Object]"

def jsToStringList : List JVal → List String
  | [] => []
  | jnull :: xs => "" :: jsToStringList xs
  | x :: xs => jsToString x :: jsToStringList xs
end

/-- Whether `pat` occurs as a contiguous substring of `s` (both as char lists). -/
def listHasInfix (pat : List Char) : List Char → Bool
  | [] => pat.isEmpty
  | c :: rest => pat.isPrefixOf (c :: rest) || listHasInfix pat rest

/-- Substring test `s` contains `pat` (JavaScript `/pat/.test(s)` for a literal
pattern). -/
def containsSub (s pat : String) : Bool := listHasInfix pat.data s.data

/-- A JavaScript word character (regex `\w`): `[A-Za-z0-9_]`. -/
def isWordChar (c : Char) : Bool :=
  ('a' ≤ c && c ≤ 'z') || ('A' ≤ c && c ≤ 'Z') || ('0' ≤ c && c ≤ '9') || c == '_'

/-- `pat` occurs at the head of `s` and is followed by a word boundary
(end of input or a non-word character) — regex `pat\b` anchored here. -/
def boundaryAfter (pat s : List Char) : Bool :=
  pat.isPrefixOf s &&
    (match s.drop pat.length with
     | [] => true
     | c :: _ => !(isWordChar c))

/-- `/pat\b/.test(s)`: `pat` occurs somewhere in `s` followed by a word
boundary. -/
def hasSubBoundary (pat : List Char) : List Char → Bool
  | [] => boundaryAfter pat []
  | c :: rest => boundaryAfter pat (c :: rest) || hasSubBoundary pat rest

-- sanity checks for the regex model
example : hasSubBoundary "male".data "female".data = true := by decide
example : hasSubBoundary "male".data "males".data = false := by decide
example : hasSubBoundary "male".data "male-x".data = true := by decide
example : containsSub "xfibrey" "fibre" = true := by decide

/-- JavaScript whitespace (regex `\s` / `trim`), ASCII part. -/
def isJSSpace (c : Char) : Bool :=
  c == ' ' || c == '\t' || c == '\n' || c == '\r' || c == '\x0b' || c == '\x0c'

/-- `String.prototype.trim` on a char list. -/
def jsTrim (l : List Char) : List Char :=
  ((l.dropWhile isJSSpace).reverse.dropWhile isJSSpace).reverse

/-- `trim` on strings. -/
def strTrim (s : String) : String := String.mk (jsTrim s.data)

/-- `normalizeKey`: lower-case, strip whitespace, keep only `[a-z0-9_]`. -/
def normalizeKey (s : String) : String :=
  String.mk (((s.data.map asciiLower).filter (fun c => !isJSSpace c)).filter
    (fun c => ('a' ≤ c && c ≤ 'z') || ('0' ≤ c && c ≤ '9') || c == '_'))

/-- Global replacement of the whole word `district` (regex `\bdistrict\b`),
fuelled so the recursion is structural: `prevWord` records whether the
character before the current position is a word character (the state the
regex engine would see in the original string); a match is skipped and
scanning resumes after it. -/
def removeWDFuel : Nat → Bool → List Char → List Char
  | 0, _, l => l
  | _ + 1, _, [] => []
  | fuel + 1, prevWord, c :: rest =>
    if !prevWord && boundaryAfter "district".data (c :: rest) then
      removeWDFuel fuel true ((c :: rest).drop 8)
    else c :: removeWDFuel fuel (isWordChar c) rest

def removeWordDistrict (l : List Char) : List Char := removeWDFuel l.length false l

/-- Collapse each maximal whitespace run to a single space (`\s+` → `' '`);
`inRun` tracks whether the previous character was whitespace. -/
def collapseWSAux (inRun : Bool) : List Char → List Char
  | [] => []
  | c :: rest =>
    if isJSSpace c then
      if inRun then collapseWSAux true rest else ' ' :: collapseWSAux true rest
    else c :: collapseWSAux false rest

def collapseWS (l : List Char) : List Char := collapseWSAux false l

/-- `normalizeDistrictName`: empty for falsy input, else lower-case, trim,
drop the word `district`, collapse whitespace, keep only letters and spaces,
trim again. -/
def normalizeDistrictName (name : JVal) : String :=
  if !truthy name then ""
  else
    let s := jsTrim ((jsToString name).data.map asciiLower)
    let s := removeWordDistrict s
    let s := collapseWS s
    let s := s.filter (fun c => ('a' ≤ c && c ≤ 'z') || isJSSpace c)
    String.mk (jsTrim s)

example : normalizeDistrictName (jstr "Kampala District") = "kampala" := by decide
example : normalizeDistrictName (jstr "  kampala ") = "kampala" := by decide
example : normalizeDistrictName (jstr "Kampala-1 District") = "kampala" := by decide

/-- `detectField(obj, candidates)`: build a map from normalized key to
original key (later keys overwrite earlier ones, as the `Map` constructor
does), then return the first candidate whose normalized form has a truthy
original key. -/
def detectField (keys cands : List String) : Option String :=
  let nm := keys.foldl (fun m k => setField m (normalizeKey k) k) []
  cands.findSome? (fun c =>
    match nm.lookup (normalizeKey c) with
    | some got => if got == "" then none else some got
    | none => none)

/-- `guessOwnership`: keyword classification of an ownership value. -/
def guessOwnership (v : JVal) : String :=
  if !truthy v then "unknown"
  else
    let s := lowerStr (jsToString v)
    if containsSub s "gov" || containsSub s "public" || containsSub s "state" then
      "government"
    else if containsSub s "private" || containsSub s "ngo" || containsSub s "foundation" ||
        containsSub s "independent" then
      "private"
    else if containsSub s "relig" || containsSub s "catholic" || containsSub s "anglican" ||
        containsSub s "muslim" || containsSub s "church" || containsSub s "islam" then
      "religious"
    else if s != "" then s
    else "unknown"

/-- `guessGender`: keyword classification of a gender value (`male` and
`female` are matched with a trailing word boundary, as in the source regexes). -/
def guessGender (v : JVal) : String :=
  if !truthy v then "unknown"
  else
    let s := lowerStr (jsToString v)
    if containsSub s "boys" || hasSubBoundary "male".data s.data then "boys"
    else if containsSub s "girls" || hasSubBoundary "female".data s.data then "girls"
    else if containsSub s "mixed" || containsSub s "coed" || containsSub s "co-ed" ||
        containsSub s "unisex" then
      "mixed"
    else if s != "" then s
    else "unknown"

example : guessOwnership (jstr "Government aided") = "government" := by decide
example : guessOwnership jnull = "unknown" := by decide
example : guessGender (jstr "female") = "boys" := by decide

/-- `enrichProperties(props, districtToRegion)`: classify ownership and
gender, resolve the district field from its synonym chain, then derive the
region (explicit region-like field first, else district lookup, else null). -/
def enrichProperties (props : JVal) (dmap : List (String × String)) : JVal :=
  let p := jSpreadFields props
  let p := setField p "ownership" (jstr (guessOwnership
    (jOr (lkF p "ownership") (jOr (lkF p "operator:type") (jOr (lkF p "operator_type")
      (jOr (lkF p "operatorType") (lkF p "management")))))))
  let p := setField p "gender" (jstr (guessGender
    (jOr (lkF p "gender") (jOr (lkF p "gender_of_students") (lkF p "sex")))))
  let district := jOr (lkF p "district") (jOr (lkF p "addr:district")
    (jOr (lkF p "is_in:district") (jOr (lkF p "admin2")
      (jOr (lkF p "ADM2_NAME") (lkF p "subcounty")))))
  let p := setField p "district" (if truthy district then district else jnull)
  let region0 := jOr (lkF p "region") (jOr (lkF p "ADM1_NAME") (jOr (lkF p "province") jnull))
  let region :=
    if !truthy region0 && truthy (lkF p "district") then
      match dmap.lookup (normalizeDistrictName (lkF p "district")) with
      | some r => jstr r
      | none => jnull
    else region0
  jobj (setField p "region" region)

/-- `buildDistrictToRegionMap`: accepts the four supported lookup-document
shapes and produces the normalized district → region table. Reading a field
of a `null` list entry throws, which the `Except` layer records. -/
def buildDistrictToRegionMap (regionsJson : JVal) : Except String (List (String × String)) :=
  if !truthy regionsJson || !(regionsJson.isArr || (match regionsJson with
      | jobj _ => true | _ => false)) then
    .ok []
  else
    let dtr := jGet regionsJson "districtToRegion"
    if truthy dtr && (match dtr with | jobj _ => true | jarr _ => true | _ => false) then
      .ok ((jSpreadFields dtr).foldl (fun m dv =>
        setField m (normalizeDistrictName (jstr dv.1)) (jsToString dv.2)) [])
    else
      match jGet regionsJson "mappings" with
      | jarr entries => mappingFold entries []
      | _ =>
        match jGet regionsJson "regions" with
        | jarr entries => mappingFold entries []
        | _ =>
          .ok ((jSpreadFields regionsJson).foldl (fun m kv =>
            match kv.2 with
            | jarr ds => ds.foldl (fun m d =>
                setField m (normalizeDistrictName d) kv.1) m
            | _ => m) [])
where
  /-- Fold over `mappings`/`regions` entries: each entry contributes its
  districts under `entry.region || entry.name || entry.label`. -/
  mappingFold : List JVal → List (String × String) → Except String (List (String × String))
  | [], m => .ok m
  | entry :: rest, m => do
    let region ← jGetE entry "region"
    let region := jOr region (jOr (jGet entry "name") (jGet entry "label"))
    let districts := jOr (jGet entry "districts") (jOr (jGet entry "items") (jarr []))
    let m :=
      if truthy region then
        match districts with
        | jarr ds => ds.foldl (fun m d =>
            setField m (normalizeDistrictName d) (jsToString region)) m
        | _ => m
      else m
    mappingFold rest m

/-! ## CSV parsing (schools pipeline) -/

/-- Number of matches in `s` of the JavaScript regex compiled from the
four-character pattern `$`, `\x7b`, `d`, `\x7d` — which is what
`new RegExp(`\${d}`, 'g')` builds, because `\$` in the template literal
suppresses the interpolation. Without the `m` flag, `$` matches only at the
end of the input, after which the three literal characters can never be
consumed, so the pattern matches at a position `i` only if `i` is the end of
input *and* the literal brace sequence follows. -/
def jsAnchoredBraceCount (d : Char) (s : List Char) : Nat :=
  ((List.range (s.length + 1)).filter
    (fun i => i == s.length && ['\x7b', d, '\x7d'].isPrefixOf (s.drop i))).length

/-- `detectCSVDelimiter`: pick the candidate among `,`, `;`, tab with the
highest regex match count (first candidate wins ties, starting best `,`
with count ‑1). -/
def detectCSVDelimiter (sample : List Char) : Char :=
  (([',', ';', '\t'] : List Char).foldl
    (fun best d =>
      let count : Int := jsAnchoredBraceCount d sample
      if count > best.2 then (d, count) else best)
    (',', (-1 : Int))).1

/-- Quote-aware single-line split: a quote toggles quoting, a doubled quote
inside quotes is a literal quote, the delimiter separates fields only
outside quotes. -/
def splitLineFn (delim : Char) : List Char → Bool → List Char → List String
  | [], _, cur => [String.mk cur.reverse]
  | '"' :: '"' :: rest, true, cur => splitLineFn delim rest true ('"' :: cur)
  | '"' :: rest, true, cur => splitLineFn delim rest false cur
  | '"' :: rest, false, cur => splitLineFn delim rest true cur
  | c :: rest, inQ, cur =>
    if c == delim && !inQ then
      String.mk cur.reverse :: splitLineFn delim rest inQ []
    else splitLineFn delim rest inQ (c :: cur)

def splitLine (delim : Char) (l : List Char) : List String := splitLineFn delim l false []

example : splitLine ',' "\"a,b\"\"c\",d".data = ["a,b\"c", "d"] := by decide

/-- First pass of line-ending normalization: `replace(/\r\n/g, '\n')`. -/
def replaceCRLF : List Char → List Char
  | '\r' :: '\n' :: rest => '\n' :: replaceCRLF rest
  | c :: rest => c :: replaceCRLF rest
  | [] => []

/-- Second pass: `replace(/\r/g, '\n')`. -/
def replaceCR (l : List Char) : List Char :=
  l.map (fun c => if c == '\r' then '\n' else c)

/-- `split('\n')`. -/
def splitNl : List Char → List (List Char)
  | [] => [[]]
  | c :: rest =>
    let r := splitNl rest
    if c == '\n' then [] :: r
    else
      match r with
      | [] => [[c]]
      | l :: ls => (c :: l) :: ls

example : splitNl "a\nb\n".data = ["a".data, "b".data, []] := by decide

/-- The effective key of header column `j`: the trimmed header cell, or the
synthetic `col_j` when that cell is empty. -/
def effKey (header : List String) (j : Nat) : String :=
  let h := header.getD j ""
  if h == "" then "col_" ++ toString j else h

/-- Build one row object: for each header index `j`, assign `cols[j]`
(empty string when the line is short) to the effective key of column `j`;
assignment overwrites an existing key in place. -/
def buildRow (header : List String) (cols : List String) : List (String × String) :=
  (List.range header.length).foldl
    (fun o j => setField o (effKey header j) (cols.getD j "")) []

/-- The line list `parseCSV` works on: normalized line endings, split on
newlines, leading blank lines dropped. -/
def csvLines (text : String) : List (List Char) :=
  (splitNl (replaceCR (replaceCRLF text.data))).dropWhile (fun l => jsTrim l == [])

/-- The delimiter `parseCSV` uses: detected from the sample of the first
five lines. -/
def csvDelim (text : String) : Char :=
  detectCSVDelimiter (List.intercalate ['\n'] ((csvLines text).take 5))

/-- The trimmed header cells of a CSV text. -/
def headerOf (text : String) : List String :=
  match csvLines text with
  | [] => []
  | hline :: _ => (splitLine (csvDelim text) hline).map strTrim

/-- `parseCSV`: normalize line endings, drop leading blank lines, detect the
delimiter from a sample of the first five lines, split the header (trimming
its cells), and build one row object per non-blank data line. -/
def parseCSV (text : String) : List (List (String × String)) :=
  match csvLines text with
  | [] => []
  | _hline :: rest =>
    let delim := csvDelim text
    let header := headerOf text
    rest.filterMap (fun line =>
      if line.isEmpty || jsTrim line == [] then none
      else some (buildRow header (splitLine delim line)))

example : parseCSV "a,b\n1,2\n\n3" = [[("a", "1"), ("b", "2")], [("a", "3"), ("b", "")]] := by
  decide
example : parseCSV "a;b\n1;2" = [[("a;b", "1;2")]] := by decide

/-! ## Row → GeoJSON conversion (schools pipeline) -/

/-- Value of a digit string. -/
def digitsVal (l : List Char) : Nat := l.foldl (fun a c => a * 10 + (c.toNat - 48)) 0

/-- Model of the `Number(...)` runtime primitive on a trimmed, non-empty
char list: sign, decimal digits, optional fractional part. Inputs outside
plain decimal literals are modelled as NaN (`none`). -/
def parseDecimal (l : List Char) : Option Rat :=
  let signAndRest : Rat × List Char :=
    match l with
    | '-' :: rest => (-1, rest)
    | '+' :: rest => (1, rest)
    | _ => (1, l)
  let sign := signAndRest.1
  let l1 := signAndRest.2
  let intPart := l1.takeWhile Char.isDigit
  let l2 := l1.dropWhile Char.isDigit
  match l2 with
  | [] => if intPart.isEmpty then none else some (sign * digitsVal intPart)
  | '.' :: rest =>
    let fracPart := rest.takeWhile Char.isDigit
    let l3 := rest.dropWhile Char.isDigit
    if l3.isEmpty then
      if intPart.isEmpty && fracPart.isEmpty then none
      else some (sign * ((digitsVal intPart : Rat) +
        (digitsVal fracPart : Rat) / ((10 : Rat) ^ fracPart.length)))
    else none
  | _ => none

/-- `toNumber(n)` = `Number(String(n).trim())`, `null` for NaN. A missing cell
(`undefined`) stringifies to `"undefined"`, hence NaN; an empty cell coerces
to `0`. -/
def toNumber (v : Option String) : Option Rat :=
  match v with
  | none => none
  | some s =>
    let t := jsTrim s.data
    if t.isEmpty then some 0 else parseDecimal t

example : toNumber (some " 32.5 ") = some (65 / 2 : Rat) := by
  have h : toNumber (some " 32.5 ") =
      some (1 * ((digitsVal ['3', '2'] : Rat) + (digitsVal ['5'] : Rat) / (10 : Rat) ^ 1)) := rfl
  have h32 : digitsVal ['3', '2'] = 32 := by decide
  have h5 : digitsVal ['5'] = 5 := by decide
  rw [h, h32, h5]
  norm_num
example : toNumber (some "") = some 0 := by decide
example : toNumber (some "abc") = none := by decide
example : toNumber none = none := by decide

/-- `{ type: 'Point', coordinates: c }`. -/
def mkPointGeom (c : JVal) : JVal := jobj [("type", jstr "Point"), ("coordinates", c)]

/-- A present cell as a JS value, `undefined` when the row lacks the key. -/
def cellJ (r : List (String × String)) (k : String) : JVal :=
  match r.lookup k with
  | some s => jstr s
  | none => jnull

/-- `rowsToGeoJSON`: detect the semantic columns from the first row, fail when
no latitude/longitude column is recognizable, then emit one Point feature per
row whose lat/lon cells parse as numbers. -/
def rowsToGeoJSON (rows : List (List (String × String))) : Except String (List JVal) :=
  match rows with
  | [] => .ok []
  | first :: _ =>
    let keys := first.map Prod.fst
    let latKey := detectField keys ["lat", "latitude", "y", "geom_lat", "Latitude", "Lat"]
    let lonKey := detectField keys
      ["lon", "lng", "longitude", "x", "geom_lon", "Longitude", "Long", "Lng"]
    let nameKey := detectField keys ["name", "school", "school_name", "name_of_school", "Name"]
    let ownershipKey := detectField keys ["ownership", "ownership_type", "management", "operator:type"]
    let genderKey := detectField keys ["gender", "gender_of_students", "sex"]
    let districtKey := detectField keys ["district", "adm2", "admin2", "ADM2_NAME"]
    match latKey, lonKey with
    | some lq, some loq =>
      .ok (rows.filterMap (fun r =>
        match toNumber (r.lookup lq), toNumber (r.lookup loq) with
        | some lat, some lon =>
          let props : List (String × JVal) := []
          let props := match nameKey with
            | some k => setField props "name" (cellJ r k) | none => props
          let props := match ownershipKey with
            | some k => setField props "ownership" (cellJ r k) | none => props
          let props := match genderKey with
            | some k => setField props "gender" (cellJ r k) | none => props
          let props := match districtKey with
            | some k => setField props "district" (cellJ r k) | none => props
          some (jobj [("type", jstr "Feature"),
            ("geometry", mkPointGeom (jarr [jnum lon, jnum lat])),
            ("properties", jobj props)])
        | _, _ => none))
    | _, _ => .error "CSV dataset does not contain recognizable lat/lon columns"

/-! ## Geometry collapse to points (schools pipeline) -/

/-- The `(sx, sy, n)` accumulator of `basicCentroid`'s loop: an element
contributes iff it is an array whose first two entries are numbers. -/
def centroidFold (cs : List JVal) : Rat × Rat × Nat :=
  cs.foldl (fun acc c =>
    match c with
    | jarr (jnum a :: jnum b :: _) => (acc.1 + a, acc.2.1 + b, acc.2.2 + 1)
    | _ => acc) (0, 0, 0)

/-- `basicCentroid` on an array: `null` when no element contributed, else the
component-wise mean. -/
def basicCentroidArr (cs : List JVal) : JVal :=
  let acc := centroidFold cs
  if acc.2.2 = 0 then jnull
  else jarr [jnum (acc.1 / (acc.2.2 : Rat)), jnum (acc.2.1 / (acc.2.2 : Rat))]

/-- `basicCentroid(coords)`: iterating a string visits its characters (none of
which is an array), iterating a non-iterable throws. -/
def basicCentroid : JVal → Except String JVal
  | jarr cs => .ok (basicCentroidArr cs)
  | jstr _ => .ok jnull
  | _ => .error "TypeError: coords is not iterable"

/-- Index read `v[0]`, throwing on `null`/`undefined`. -/
def jIndexZero : JVal → Except String JVal
  | jnull => .error "TypeError: cannot read properties of null"
  | jarr xs => .ok (xs.headD jnull)
  | jstr s => .ok (match s.data with | [] => jnull | c :: _ => jstr (String.mk [c]))
  | jobj fs => .ok ((fs.lookup "0").getD jnull)
  | _ => .ok jnull

/-- One level of `Array.prototype.flat`. -/
def flatOnce (xs : List JVal) : List JVal :=
  (xs.map (fun x => match x with | jarr ys => ys | v => [v])).flatten

/-- `v.flat()`, throwing when `v` is not an array. -/
def jsFlat1 : JVal → Except String JVal
  | jarr xs => .ok (jarr (flatOnce xs))
  | _ => .error "TypeError: flat is not a function"

/-- `toPointGeometry`: Point passes through unchanged, MultiPoint takes its
first coordinate entry, the linear/areal types take `basicCentroid` of their
(suitably flattened) coordinates, anything else (including falsy input)
yields `null` (`flat(2)` is one depth-2 flatten, equal to two depth-1 ones). -/
def toPointGeometry (g : JVal) : Except String JVal :=
  if !truthy g then .ok jnull
  else if isStr (jGet g "type") "Point" then .ok g
  else if isStr (jGet g "type") "MultiPoint" then do
    let c ← jIndexZero (jGet g "coordinates")
    .ok (mkPointGeom c)
  else if isStr (jGet g "type") "LineString" then do
    let c ← basicCentroid (jGet g "coordinates")
    .ok (mkPointGeom c)
  else if isStr (jGet g "type") "MultiLineString" then do
    let fl ← jsFlat1 (jGet g "coordinates")
    let c ← basicCentroid fl
    .ok (mkPointGeom c)
  else if isStr (jGet g "type") "Polygon" then do
    let fl ← jsFlat1 (jGet g "coordinates")
    let c ← basicCentroid fl
    .ok (mkPointGeom c)
  else if isStr (jGet g "type") "MultiPolygon" then do
    let fl1 ← jsFlat1 (jGet g "coordinates")
    let fl2 ← jsFlat1 fl1
    let c ← basicCentroid fl2
    .ok (mkPointGeom c)
  else .ok jnull

/-- The skip condition of `coerceToPoints`: falsy geometry, non-array
coordinates, or a non-number direct coordinate entry. -/
def coordCheckFails (geom : JVal) : Bool :=
  !truthy geom ||
    (match jGet geom "coordinates" with
     | jarr xs => xs.any (fun x => !x.isNum)
     | _ => true)

/-- `coerceToPoints`: collapse every feature's geometry to a point and keep
only those whose point has an all-numeric coordinate array. -/
def coerceToPoints : List JVal → Except String (List JVal)
  | [] => .ok []
  | f :: rest => do
    let g ← jGetE f "geometry"
    let geom ← toPointGeometry g
    if coordCheckFails geom then coerceToPoints rest
    else do
      let out ← coerceToPoints rest
      .ok (jobj [("type", jstr "Feature"), ("geometry", geom),
        ("properties", jOr (jGet f "properties") (jobj []))] :: out)

/-- `anyToFeatureCollection`, represented by the list of features it wraps. -/
def anyToFeatureCollection (obj : JVal) : List JVal :=
  if !truthy obj then []
  else if isStr (jGet obj "type") "FeatureCollection" && (jGet obj "features").isArr then
    match jGet obj "features" with | jarr xs => xs | _ => []
  else
    match obj with
    | jarr xs => xs
    | _ => match jGet obj "features" with | jarr xs => xs | _ => []

/-! ## Dataset assembler (schools pipeline sourcing) -/

/-- `enrichFeatureCollection`: copy each feature's properties, backfill `name`
from the first detected name-like column, and enrich via `enrichProperties`. -/
def enrichFeatureCollection : List JVal → List (String × String) → Except String (List JVal)
  | [], _ => .ok []
  | f :: rest, dmap => do
    let props0 ← jGetE f "properties"
    let p := jSpreadFields (jOr props0 (jobj []))
    let p :=
      match detectField (jsKeys p) ["name", "school", "school_name", "Name"] with
      | some k => if !truthy (lkF p "name") then setField p "name" (lkF p k) else p
      | none => p
    let geom := jGet f "geometry"
    let out ← enrichFeatureCollection rest dmap
    .ok (jobj [("type", jstr "Feature"), ("geometry", geom),
      ("properties", enrichProperties (jobj p) dmap)] :: out)

/-- The upstream world a schools-pipeline run observes: the first existing
local candidate file (its `path.extname` and raw content), the
`OFFICIAL_SCHOOLS_URL || SECONDARY_SCHOOLS_URL` value (`none` when empty),
the network, the `JSON.parse` primitive (`none` models a parse exception),
the optional `OVERPASS_URL` override, and the parsed `regions.json`
(`jobj []` when the file is absent). -/
structure SchoolsEnv : Type where
  localFile : Option (String × String)
  officialURL : Option String
  fetchText : String → Except String String
  jsonParse : String → Option JVal
  overpassURL : Option String
  regionsJson : JVal

/-- `tryLoadOfficialDataset`: local candidate file first (CSV or JSON by
extension; an unparseable or falsy JSON document throws), else the remote
URL when configured (JSON first, then CSV, `none` when the CSV has no rows),
else `none`. -/
def tryLoadOfficialDataset (env : SchoolsEnv) (dmap : List (String × String)) :
    Except String (Option (String × List JVal)) :=
  match env.localFile with
  | some (cext, raw) =>
    if cext == ".csv" then do
      let rows := parseCSV raw
      let fc ← rowsToGeoJSON rows
      let fc ← enrichFeatureCollection fc dmap
      .ok (some ("official-local", fc))
    else
      match env.jsonParse raw with
      | some j =>
        if truthy j then do
          let fc ← coerceToPoints (anyToFeatureCollection j)
          let fc ← enrichFeatureCollection fc dmap
          .ok (some ("official-local", fc))
        else .error "Failed to parse local official dataset JSON"
      | none => .error "Failed to parse local official dataset JSON"
  | none =>
    match env.officialURL with
    | none => .ok none
    | some url => do
      let text ← env.fetchText url
      match env.jsonParse text with
      | some j =>
        if truthy j then do
          let fc ← coerceToPoints (anyToFeatureCollection j)
          let fc ← enrichFeatureCollection fc dmap
          .ok (some ("official-remote", fc))
        else remoteCSV text dmap
      | none => remoteCSV text dmap
where
  remoteCSV (text : String) (dmap : List (String × String)) :
      Except String (Option (String × List JVal)) := do
    let rows := parseCSV text
    if rows.length > 0 then do
      let fc ← rowsToGeoJSON rows
      let fc ← enrichFeatureCollection fc dmap
      .ok (some ("official-remote-csv", fc))
    else .ok none

/-- The per-element loop of `fetchOverpass`: nodes use their own lon/lat,
other elements their provided `center`; elements without either are skipped;
the kept ones become Point features with the synonym-chain property pulls. -/
def overpassElems : List JVal → Except String (List JVal)
  | [] => .ok []
  | el :: rest => do
    let t ← jGetE el "type"
    let lonlat : Option (Rat × Rat) :=
      if isStr t "node" && (jGet el "lon").isNum && (jGet el "lat").isNum then
        match jGet el "lon", jGet el "lat" with
        | jnum lo, jnum la => some (lo, la)
        | _, _ => none
      else
        let center := jGet el "center"
        if truthy center && (jGet center "lon").isNum && (jGet center "lat").isNum then
          match jGet center "lon", jGet center "lat" with
          | jnum lo, jnum la => some (lo, la)
          | _, _ => none
        else none
    match lonlat with
    | none => overpassElems rest
    | some (lo, la) =>
      let props := jSpreadFields (jOr (jGet el "tags") (jobj []))
      let props := setField props "name"
        (jOr (lkF props "name") (jOr (lkF props "official_name") jnull))
      let props := setField props "ownership"
        (jOr (lkF props "ownership") (jOr (lkF props "operator:type")
          (jOr (lkF props "operator_type") (lkF props "operator"))))
      let props := setField props "gender"
        (jOr (lkF props "gender") (lkF props "student:gender"))
      let props := setField props "district"
        (jOr (lkF props "addr:district") (jOr (lkF props "district")
          (jOr (lkF props "is_in:district") jnull)))
      let out ← overpassElems rest
      .ok (jobj [("type", jstr "Feature"),
        ("geometry", mkPointGeom (jarr [jnum lo, jnum la])),
        ("properties", jobj props)] :: out)

/-- `fetchOverpass`: POST the schools query to the (possibly overridden)
endpoint, require a truthy JSON body with an `elements` array, and build the
Point features. -/
def fetchOverpass (env : SchoolsEnv) : Except String (List JVal) := do
  let endpoint := env.overpassURL.getD "https://overpass-api.de/api/interpreter"
  let text ← env.fetchText endpoint
  match env.jsonParse text with
  | none => .error "Invalid Overpass response"
  | some json =>
    if !truthy json then .error "Invalid Overpass response"
    else
      match jGet json "elements" with
      | jarr els => overpassElems els
      | _ => .error "Invalid Overpass response"

/-- The sourcing logic of the schools `main`: build the district → region
table, try the official dataset (its exceptions are caught and discarded),
and fall back to Overpass; the returned pair is the output's `meta.source`
label and its feature list, and an `error` is a fatal run (non-zero exit,
no output written). -/
def mainSourcing (env : SchoolsEnv) : Except String (String × List JVal) := do
  let dmap ← buildDistrictToRegionMap env.regionsJson
  let result : Option (String × List JVal) :=
    match tryLoadOfficialDataset env dmap with
    | .ok r => r
    | .error _ => none
  match result with
  | some (src, fc) => .ok (src, fc)
  | none => do
    let fcRaw ← fetchOverpass env
    let fc ← enrichFeatureCollection fcRaw dmap
    .ok ("overpass", fc)

/-! ## Fiber pipeline: OSM element → GeoJSON feature -/

/-- A vertex of a way's `out geom` geometry; a field is `none` when the
upstream point object lacks that numeric coordinate. -/
structure OsmPt : Type where
  lon : Option Rat
  lat : Option Rat

/-- A relation member as the fiber script reads it. -/
structure OsmMember : Type where
  type : String
  geometry : Option (List OsmPt)

/-- An Overpass element as the fiber script reads it: `lon`/`lat` are `some`
exactly when the element carries them as numbers, `geometry`/`members` are
`some` exactly when the element carries them as arrays. -/
structure OsmElement : Type where
  type : String
  id : Int
  tags : List (String × String)
  lon : Option Rat := none
  lat : Option Rat := none
  geometry : Option (List OsmPt) := none
  members : Option (List OsmMember) := none

/-- Truthiness of an optional tag value. -/
def truthyS : Option String → Bool
  | some s => s != ""
  | none => false

/-- Case-insensitive `/fibre|fiber/` test. -/
def fiberRe (s : String) : Bool :=
  containsSub (lowerStr s) "fibre" || containsSub (lowerStr s) "fiber"

/-- Case-insensitive full match `/^(exchange|distribution_point|data_center)$/`. -/
def telecomSiteRe (s : String) : Bool :=
  lowerStr s == "exchange" || lowerStr s == "distribution_point" ||
    lowerStr s == "data_center"

/-- The `feature_type` classification: ways/relations qualify as `fiber_line`
by the cable/communication medium patterns; nodes are classified
site/cabinet/pole in that priority order; everything else stays null. -/
def featureTypeOf (el : OsmElement) : JVal :=
  let tags := el.tags
  if (el.type == "way" || el.type == "relation") &&
      ((tags.lookup "cable" == some "telecom" &&
        fiberRe ((tags.lookup "cable:medium").getD "")) ||
       (truthyS (tags.lookup "communication:line") &&
        fiberRe ((tags.lookup "communication:medium").getD ""))) then
    jstr "fiber_line"
  else if el.type == "node" then
    if telecomSiteRe ((tags.lookup "telecom").getD "") then jstr "telecom_site"
    else if tags.lookup "man_made" == some "street_cabinet" &&
        truthyS (tags.lookup "telecom") then jstr "telecom_cabinet"
    else if tags.lookup "man_made" == some "utility_pole" &&
        tags.lookup "utility" == some "telecom" then jstr "telecom_pole"
    else jnull
  else jnull

/-- `[p.lon, p.lat]` for one geometry vertex (an absent coordinate is
`undefined`, which the JSON serializer would write as `null`). -/
def ptCoords (p : OsmPt) : JVal :=
  jarr [match p.lon with | some q => jnum q | none => jnull,
        match p.lat with | some q => jnum q | none => jnull]

/-- The coordinate list of one way geometry. -/
def lineCoords (pts : List OsmPt) : JVal := jarr (pts.map ptCoords)

/-- The member-way lines of a relation, in member order: one line per member
of type `way` that carries a geometry array. -/
def relGeomLines (el : OsmElement) : List JVal :=
  (el.members.getD []).filterMap (fun m =>
    if m.type == "way" then m.geometry.map lineCoords else none)

/-- A tag value or null: `tags.k || null` (an empty tag value is falsy). -/
def tagOrNull (tags : List (String × String)) (k : String) : JVal :=
  jOr (match tags.lookup k with | some s => jstr s | none => jnull) jnull

/-- The shared property block of every fiber feature. -/
def commonProps (el : OsmElement) : List (String × JVal) :=
  [("osm_id", jnum (el.id : Rat)),
   ("osm_type", jstr el.type),
   ("name", jOr (tagOrNull el.tags "name") (tagOrNull el.tags "ref")),
   ("operator", tagOrNull el.tags "operator"),
   ("owner", tagOrNull el.tags "owner"),
   ("telecom", tagOrNull el.tags "telecom"),
   ("cable_medium", tagOrNull el.tags "cable:medium"),
   ("communication_medium", tagOrNull el.tags "communication:medium"),
   ("source", jstr "OpenStreetMap"),
   ("licence", jstr "ODbL-1.0"),
   ("attribution", jstr "© OpenStreetMap contributors")]

/-- One emitted fiber feature. -/
structure FiberFeature : Type where
  fid : String
  geometry : JVal
  properties : List (String × JVal)

/-- `elementToGeoJSONFeature`: nodes with numeric lon/lat become Points, ways
with a geometry array become LineStrings, relations become a LineString for
exactly one member line and a MultiLineString for several; an element whose
geometry cannot be built yields no feature. -/
def elementToGeoJSONFeature (el : OsmElement) : Option FiberFeature :=
  let geometry : Option JVal :=
    if el.type == "node" && el.lon.isSome && el.lat.isSome then
      some (mkPointGeom (jarr [jnum (el.lon.getD 0), jnum (el.lat.getD 0)]))
    else if el.type == "way" && el.geometry.isSome then
      some (jobj [("type", jstr "LineString"),
        ("coordinates", lineCoords (el.geometry.getD []))])
    else if el.type == "relation" && el.members.isSome then
      match relGeomLines el with
      | [] => none
      | [l] => some (jobj [("type", jstr "LineString"), ("coordinates", l)])
      | ls => some (jobj [("type", jstr "MultiLineString"), ("coordinates", jarr ls)])
    else none
  match geometry with
  | none => none
  | some g =>
    some { fid := el.type ++ "/" ++ toString el.id
           geometry := g
           properties := commonProps el ++
             [("feature_type", featureTypeOf el),
              ("tags", jobj (el.tags.map (fun kv => (kv.1, jstr kv.2))))] }

/-- `buildFeatureCollection`: keep the features of the elements that yield one. -/
def buildFeatureCollection (elements : List OsmElement) : List FiberFeature :=
  elements.filterMap elementToGeoJSONFeature

/-! ## Retry coordinator (fiber pipeline) -/

/-- The retry loop of `postJSONWithRetry` from attempt number `attempt` with
`k` attempts remaining, carrying `lastError`. The outcome of one fetch
(including the non-2xx and `remark` soft-failure checks) is abstracted as
`f attempt endpoint`; the returned list records the endpoint of every attempt
actually issued, in order. -/
def retryFrom (eps : List String) (f : Nat → String → Except String JVal) :
    Nat → Nat → Option String → Except String JVal × List String
  | _, 0, last => (.error (last.getD "Overpass query failed"), [])
  | attempt, k + 1, _last =>
    let ep := eps.getD ((attempt - 1) % eps.length) ""
    match f attempt ep with
    | .ok j => (.ok j, [ep])
    | .error e =>
      let r := retryFrom eps f (attempt + 1) k (some e)
      (r.1, ep :: r.2)

/-- `postJSONWithRetry(endpoints, body, { maxAttempts })`: attempts are
numbered from 1; on exhaustion the last error is thrown. -/
def postJSONWithRetry (eps : List String) (f : Nat → String → Except String JVal)
    (maxAttempts : Nat) : Except String JVal × List String :=
  retryFrom eps f 1 maxAttempts none

/-! ## Named concrete inputs used by witnesses and counterexamples -/

/-- A relation with two member ways of 2 and 3 vertices. -/
def relTwoWays : OsmElement :=
  { type := "relation", id := 9, tags := []
    members := some
      [{ type := "way", geometry := some [⟨some 1, some 2⟩, ⟨some 3, some 4⟩] },
       { type := "way",
         geometry := some [⟨some 5, some 6⟩, ⟨some 7, some 8⟩, ⟨some 9, some 10⟩] }] }

/-- A way whose single geometry vertex lacks a numeric longitude. -/
def badWay : OsmElement :=
  { type := "way", id := 7, tags := [], geometry := some [⟨none, some 3⟩] }

/-- A node with numeric coordinates. -/
def nodeEl : OsmElement :=
  { type := "node", id := 1, tags := [], lon := some 1, lat := some 2 }


/-- No ownership keyword family matches `s`. -/
def ownershipNoMatch (s : String) : Bool :=
  !(containsSub s "gov" || containsSub s "public" || containsSub s "state") &&
  !(containsSub s "private" || containsSub s "ngo" || containsSub s "foundation" ||
    containsSub s "independent") &&
  !(containsSub s "relig" || containsSub s "catholic" || containsSub s "anglican" ||
    containsSub s "muslim" || containsSub s "church" || containsSub s "islam")

/-- No gender keyword family matches `s`. -/
def genderNoMatch (s : String) : Bool :=
  !(containsSub s "boys" || hasSubBoundary "male".data s.data) &&
  !(containsSub s "girls" || hasSubBoundary "female".data s.data) &&
  !(containsSub s "mixed" || containsSub s "coed" || containsSub s "co-ed" ||
    containsSub s "unisex")

/-- The coordinate pairs `basicCentroid` actually counts: direct elements
that are arrays whose first two entries are numbers. -/
def validPairs : List JVal → List (Rat × Rat)
  | [] => []
  | jarr (jnum a :: jnum b :: _) :: rest => (a, b) :: validPairs rest
  | _ :: rest => validPairs rest

/-- Component-wise mean of a pair list as a coordinates value (`null` for an
empty list). -/
def centroidVal (ps : List (Rat × Rat)) : JVal :=
  if ps.length = 0 then jnull
  else jarr [jnum ((ps.map Prod.fst).sum / (ps.length : Rat)),
             jnum ((ps.map Prod.snd).sum / (ps.length : Rat))]

mutual
/-- Modelled from the spec: the numeric coordinate pairs "found anywhere in
its (possibly nested) coordinate structure" — an array whose first two
entries are numbers counts as one pair, any other array is searched
recursively. Written from the specification's words, for comparison with the
implementation. -/
def collectPairsSpec : JVal → List (Rat × Rat)
  | jarr (jnum a :: jnum b :: _) => [(a, b)]
  | jarr xs => collectPairsListSpec xs
  | _ => []

def collectPairsListSpec : List JVal → List (Rat × Rat)
  | [] => []
  | x :: xs => collectPairsSpec x ++ collectPairsListSpec xs
end

/-- Modelled from the spec: "arithmetic centroid over all numeric coordinate
pairs found in its (possibly nested) coordinate structure". -/
def specCentroid (g : JVal) : Option (Rat × Rat) :=
  let ps := collectPairsSpec (jGet g "coordinates")
  if ps.length = 0 then none
  else some ((ps.map Prod.fst).sum / (ps.length : Rat),
             (ps.map Prod.snd).sum / (ps.length : Rat))

/-- A MultiPoint geometry with two points, `[0,0]` and `[2,2]`. -/
def mpTwoPoints : JVal :=
  jobj [("type", jstr "MultiPoint"),
        ("coordinates", jarr [jarr [jnum 0, jnum 0], jarr [jnum 2, jnum 2]])]

/-- A LineString geometry with vertices `[0,0]` and `[2,2]`. -/
def lsTwoPoints : JVal :=
  jobj [("type", jstr "LineString"),
        ("coordinates", jarr [jarr [jnum 0, jnum 0], jarr [jnum 2, jnum 2]])]

/-- A remote official dataset: a one-feature FeatureCollection. -/
def remoteFC : JVal :=
  jobj [("type", jstr "FeatureCollection"),
        ("features", jarr [jobj [("type", jstr "Feature"),
          ("geometry", mkPointGeom (jarr [jnum 1, jnum 2])),
          ("properties", jobj [])]])]

/-- An upstream world where the local official file exists but is malformed
JSON, the remote official URL is configured and would serve a good
FeatureCollection, and Overpass answers with an empty element list. -/
def envLocalBroken : SchoolsEnv :=
  { localFile := some (".json", "notjson")
    officialURL := some "http://official.example/schools"
    fetchText := fun u =>
      if u == "http://official.example/schools" then .ok "REMOTE" else .ok "OVERPASS"
    jsonParse := fun s =>
      if s == "REMOTE" then some remoteFC
      else if s == "OVERPASS" then some (jobj [("elements", jarr [])])
      else none
    overpassURL := none
    regionsJson := jobj [] }

/-- An upstream world with no local file and no URL configured. -/
def envNoOfficial : SchoolsEnv :=
  { localFile := none
    officialURL := none
    fetchText := fun _ => .ok "OVERPASS"
    jsonParse := fun s =>
      if s == "OVERPASS" then some (jobj [("elements", jarr [])]) else none
    overpassURL := none
    regionsJson := jobj [] }

/-- Properties holding only a fallback `addr:district`. -/
def fsAddrDistrict : List (String × JVal) := [("addr:district", jstr "Kampala")]

/-- A one-entry district → region table. -/
def dmapKampala : List (String × String) := [("kampala", "Central")]

/-- A feature already carrying Point geometry. -/
def pointFeat : JVal :=
  jobj [("geometry", mkPointGeom (jarr [jnum 1, jnum 2])), ("properties", jobj [])]

/-- What `coerceToPoints` emits for `pointFeat`. -/
def pointFeatOut : JVal :=
  jobj [("type", jstr "Feature"), ("geometry", mkPointGeom (jarr [jnum 1, jnum 2])),
        ("properties", jobj [])]

/-! ## Field-list toolkit -/

theorem lookup_cons_eq {α : Type} (l : List (String × α)) (k : String) (b : α) :
    List.lookup k ((k, b) :: l) = some b := by
  simp [List.lookup]

theorem lookup_cons_ne {α : Type} (l : List (String × α)) (k a : String) (b : α)
    (h : k ≠ a) : List.lookup k ((a, b) :: l) = List.lookup k l := by
  have hb : (k == a) = false := by simpa using h
  simp [List.lookup, hb]

theorem lookup_append {α : Type} (k : String) :
    ∀ (l1 l2 : List (String × α)),
      List.lookup k (l1 ++ l2) =
        match List.lookup k l1 with
        | some v => some v
        | none => List.lookup k l2
  | [], l2 => by simp
  | (a, b) :: t, l2 => by
    by_cases h : k = a
    · subst h
      simp [lookup_cons_eq]
    · simp only [List.cons_append, lookup_cons_ne _ _ _ _ h]
      exact lookup_append k t l2

theorem any_key_iff {α : Type} (k : String) :
    ∀ (o : List (String × α)), (o.any (fun kv => kv.1 == k)) = true ↔
      List.lookup k o ≠ none
  | [] => by simp
  | (a, b) :: t => by
    by_cases h : a = k
    · subst h
      simp [lookup_cons_eq]
    · rw [lookup_cons_ne _ _ _ _ (fun he => h he.symm)]
      simp only [List.any_cons, Bool.or_eq_true, beq_iff_eq, h, false_or]
      exact any_key_iff k t

theorem lookup_mapRepl_eq {α : Type} (k : String) (v : α) :
    ∀ (o : List (String × α)), (o.any (fun kv => kv.1 == k)) = true →
      List.lookup k (o.map (fun kv => if kv.1 == k then (k, v) else kv)) = some v
  | [], h => by simp at h
  | (a, b) :: t, h => by
    by_cases hk : a = k
    · subst hk
      simp [lookup_cons_eq]
    · have hb : (a == k) = false := by simpa using hk
      simp only [List.map_cons, hb, Bool.false_eq_true, if_false]
      rw [lookup_cons_ne _ _ _ _ (fun he => hk he.symm)]
      simp only [List.any_cons, Bool.or_eq_true, beq_iff_eq, hk, false_or] at h
      exact lookup_mapRepl_eq k v t h

theorem lookup_mapRepl_ne {α : Type} (k kq : String) (v : α) (h : kq ≠ k) :
    ∀ (o : List (String × α)),
      List.lookup kq (o.map (fun kv => if kv.1 == k then (k, v) else kv)) =
        List.lookup kq o
  | [] => by simp
  | (a, b) :: t => by
    by_cases hk : a = k
    · subst hk
      simp only [List.map_cons, beq_self_eq_true, if_true]
      rw [lookup_cons_ne _ _ _ _ h, lookup_cons_ne _ _ _ _ h]
      exact lookup_mapRepl_ne a kq v h t
    · have hb : (a == k) = false := by simpa using hk
      simp only [List.map_cons, hb, Bool.false_eq_true, if_false]
      by_cases hq : kq = a
      · subst hq
        simp [lookup_cons_eq]
      · rw [lookup_cons_ne _ _ _ _ hq, lookup_cons_ne _ _ _ _ hq]
        exact lookup_mapRepl_ne k kq v h t

theorem lookup_setField_self {α : Type} (o : List (String × α)) (k : String) (v : α) :
    List.lookup k (setField o k v) = some v := by
  unfold setField
  by_cases h : (o.any (fun kv => kv.1 == k)) = true
  · rw [if_pos h]
    exact lookup_mapRepl_eq k v o h
  · rw [if_neg h, lookup_append]
    have hnone : List.lookup k o = none := by
      by_contra hc
      exact h ((any_key_iff k o).2 hc)
    rw [hnone]
    simp [lookup_cons_eq]

theorem lookup_setField_ne {α : Type} (o : List (String × α)) (k kq : String) (v : α)
    (h : kq ≠ k) : List.lookup kq (setField o k v) = List.lookup kq o := by
  unfold setField
  by_cases ha : (o.any (fun kv => kv.1 == k)) = true
  · rw [if_pos ha]
    exact lookup_mapRepl_ne k kq v h o
  · rw [if_neg ha, lookup_append]
    cases hl : List.lookup kq o with
    | some v2 => rfl
    | none => simp [lookup_cons_ne _ _ _ _ h]

theorem lkF_setField_self (o : List (String × JVal)) (k : String) (v : JVal) :
    lkF (setField o k v) k = v := by
  simp [lkF, lookup_setField_self]

theorem lkF_setField_ne (o : List (String × JVal)) (k kq : String) (v : JVal)
    (h : kq ≠ k) : lkF (setField o k v) kq = lkF o kq := by
  simp [lkF, lookup_setField_ne _ _ _ _ h]

theorem foldl_setField_lookup {α : Type} (k : String) :
    ∀ (entries : List (String × α)) (init : List (String × α)),
      List.lookup k (entries.foldl (fun acc kv => setField acc kv.1 kv.2) init) =
        match List.lookup k entries.reverse with
        | some v => some v
        | none => List.lookup k init
  | [], init => by simp
  | (a, b) :: t, init => by
    rw [List.foldl_cons, foldl_setField_lookup k t (setField init a b),
      List.reverse_cons, lookup_append]
    cases hl : List.lookup k t.reverse with
    | some v => rfl
    | none =>
      by_cases h : k = a
      · subst h
        simp [lookup_cons_eq, lookup_setField_self]
      · simp [lookup_cons_ne _ _ _ _ h, lookup_setField_ne _ _ _ _ h]

theorem any_key_mem {α : Type} (o : List (String × α)) (k : String) :
    (o.any (fun kv => kv.1 == k)) = true ↔ k ∈ o.map Prod.fst := by
  constructor
  · intro h
    rcases List.any_eq_true.1 h with ⟨kv, hm, he⟩
    exact List.mem_map.2 ⟨kv, hm, by simpa using he⟩
  · intro h
    rcases List.mem_map.1 h with ⟨kv, hm, he⟩
    exact List.any_eq_true.2 ⟨kv, hm, by simpa using he⟩

theorem map_fst_setField {α : Type} (o : List (String × α)) (k : String) (v : α) :
    (setField o k v).map Prod.fst =
      if (o.any (fun kv => kv.1 == k)) = true then o.map Prod.fst
      else o.map Prod.fst ++ [k] := by
  unfold setField
  by_cases h : (o.any (fun kv => kv.1 == k)) = true
  · rw [if_pos h, if_pos h, List.map_map]
    apply List.map_congr_left
    intro x _
    by_cases hx : x.1 = k
    · simp [hx]
    · simp [hx]
  · rw [if_neg h, if_neg h, List.map_append]
    rfl

theorem setField_keys_nodup {α : Type} (o : List (String × α)) (k : String) (v : α)
    (hnd : (o.map Prod.fst).Nodup) : ((setField o k v).map Prod.fst).Nodup := by
  rw [map_fst_setField]
  by_cases h : (o.any (fun kv => kv.1 == k)) = true
  · rw [if_pos h]
    exact hnd
  · rw [if_neg h]
    have : k ∉ o.map Prod.fst := fun hm => h ((any_key_mem o k).2 hm)
    simp [List.nodup_append, hnd, this]

theorem setField_keys_mem {α : Type} (o : List (String × α)) (k kq : String) (v : α) :
    kq ∈ (setField o k v).map Prod.fst ↔ (kq = k ∨ kq ∈ o.map Prod.fst) := by
  rw [map_fst_setField]
  by_cases h : (o.any (fun kv => kv.1 == k)) = true
  · rw [if_pos h]
    have hk := (any_key_mem o k).1 h
    constructor
    · exact fun hm => Or.inr hm
    · rintro (rfl | hm)
      · exact hk
      · exact hm
  · rw [if_neg h]
    simp [or_comm]

theorem foldl_setField_keys {α : Type} :
    ∀ (entries : List (String × α)) (init : List (String × α)),
      (init.map Prod.fst).Nodup →
      (((entries.foldl (fun acc kv => setField acc kv.1 kv.2) init).map Prod.fst).Nodup ∧
       ∀ kq, kq ∈ (entries.foldl (fun acc kv => setField acc kv.1 kv.2) init).map Prod.fst ↔
         (kq ∈ entries.map Prod.fst ∨ kq ∈ init.map Prod.fst))
  | [], init, hnd => ⟨hnd, by simp⟩
  | (a, b) :: t, init, hnd => by
    have ih := foldl_setField_keys t (setField init a b) (setField_keys_nodup init a b hnd)
    refine ⟨ih.1, fun kq => ?_⟩
    rw [List.foldl_cons, ih.2 kq]
    simp only [setField_keys_mem, List.map_cons, List.mem_cons]
    tauto

/-! ## C1: retry coordinator -/

theorem retryFrom_trace (eps : List String) (f : Nat → String → Except String JVal) :
    ∀ (k a : Nat) (last : Option String), 1 ≤ a →
      (retryFrom eps f a k last).2 =
        (List.range (retryFrom eps f a k last).2.length).map
          (fun i => eps.getD ((a - 1 + i) % eps.length) "")
  | 0, a, last, _ => by simp [retryFrom]
  | k + 1, a, last, ha => by
    simp only [retryFrom]
    cases hf : f a (eps.getD ((a - 1) % eps.length) "") with
    | ok j => simp [show List.range 1 = [0] from rfl]
    | error e =>
      have ih := retryFrom_trace eps f k (a + 1) (some e) (by omega)
      simp only [List.length_cons, List.range_succ_eq_map, List.map_cons,
        List.map_map]
      congr 1
      rw [ih]
      simp only [List.length_map, List.length_range]
      apply List.map_congr_left
      intro i _
      have harg : a + 1 - 1 + i = a - 1 + (i + 1) := by omega
      rw [harg]
      rfl

theorem retryFrom_allFail (eps : List String) (f : Nat → String → Except String JVal) :
    ∀ (k a : Nat) (last : Option String), 1 ≤ a → 1 ≤ k →
      (∀ i, a ≤ i → i < a + k →
        ∃ e, f i (eps.getD ((i - 1) % eps.length) "") = .error e) →
      (retryFrom eps f a k last).2.length = k ∧
      ∀ e2, f (a + k - 1) (eps.getD ((a + k - 1 - 1) % eps.length) "") = .error e2 →
        (retryFrom eps f a k last).1 = .error e2
  | 0, a, last, _, hk, _ => by omega
  | k + 1, a, last, ha, _, hfail => by
    obtain ⟨e0, he0⟩ := hfail a (Nat.le_refl a) (by omega)
    simp only [retryFrom, he0]
    cases k with
    | zero =>
      refine ⟨by simp [retryFrom], fun e2 he2 => ?_⟩
      have : a + 1 - 1 = a := by omega
      rw [this] at he2
      rw [he0] at he2
      cases he2
      simp [retryFrom]
    | succ k2 =>
      have ih := retryFrom_allFail eps f (k2 + 1) (a + 1) (some e0) (by omega) (by omega)
        (fun i h1 h2 => hfail i (by omega) (by omega))
      refine ⟨by simp [ih.1], fun e2 he2 => ?_⟩
      apply ih.2 e2
      have h3 : a + 1 + (k2 + 1) - 1 = a + (k2 + 1 + 1) - 1 := by omega
      rw [h3]
      exact he2

theorem retryFrom_success (eps : List String) (f : Nat → String → Except String JVal) :
    ∀ (m k a : Nat) (last : Option String) (j : JVal), 1 ≤ a → m < k →
      f (a + m) (eps.getD ((a + m - 1) % eps.length) "") = .ok j →
      (∀ i, a ≤ i → i < a + m →
        ∃ e, f i (eps.getD ((i - 1) % eps.length) "") = .error e) →
      (retryFrom eps f a k last).1 = .ok j ∧
      (retryFrom eps f a k last).2.length = m + 1
  | 0, k, a, last, j, ha, hm, hok, _ => by
    cases k with
    | zero => omega
    | succ k2 =>
      have h0 : a + 0 = a := by omega
      rw [h0] at hok
      simp only [retryFrom]
      rw [hok]
      exact ⟨rfl, rfl⟩
  | m + 1, k, a, last, j, ha, hm, hok, hfail => by
    cases k with
    | zero => omega
    | succ k2 =>
      obtain ⟨e0, he0⟩ := hfail a (Nat.le_refl a) (by omega)
      simp only [retryFrom, he0]
      have harg : a + 1 + m = a + (m + 1) := by omega
      have ih := retryFrom_success eps f m k2 (a + 1) (some e0) j (by omega) (by omega)
        (by rw [harg]; exact hok)
        (fun i h1 h2 => hfail i (by omega) (by omega))
      exact ⟨ih.1, by simp [ih.2]⟩

/-- C1: the retry coordinator `postJSONWithRetry`, with `N = eps.length ≥ 1`
endpoints and `A ≥ 1` maximum attempts, (i) issues attempt `i` (1-based,
recorded in order in the trace) against `endpoints[(i-1) mod N]`; (ii) when
every attempt fails it makes exactly `A` attempts and then fails carrying
the last failure's message; (iii) when attempt `k` is the first to succeed it
returns that attempt's complete JSON payload after exactly `k` attempts. -/
theorem postJSONWithRetry_spec (eps : List String) (f : Nat → String → Except String JVal)
    (A : Nat) (hN : 0 < eps.length) (hA : 1 ≤ A) :
    ((postJSONWithRetry eps f A).2 =
      (List.range (postJSONWithRetry eps f A).2.length).map
        (fun i => eps.getD (i % eps.length) "")) ∧
    ((∀ i, 1 ≤ i → i ≤ A →
        ∃ e, f i (eps.getD ((i - 1) % eps.length) "") = .error e) →
      (postJSONWithRetry eps f A).2.length = A ∧
      ∀ e2, f A (eps.getD ((A - 1) % eps.length) "") = .error e2 →
        (postJSONWithRetry eps f A).1 = .error e2) ∧
    (∀ k j, 1 ≤ k → k ≤ A →
      f k (eps.getD ((k - 1) % eps.length) "") = .ok j →
      (∀ i, 1 ≤ i → i < k →
        ∃ e, f i (eps.getD ((i - 1) % eps.length) "") = .error e) →
      (postJSONWithRetry eps f A).1 = .ok j ∧
      (postJSONWithRetry eps f A).2.length = k) := by
  refine ⟨?_, ?_, ?_⟩
  · have h := retryFrom_trace eps f A 1 none (Nat.le_refl 1)
    simpa using h
  · intro hfail
    have h := retryFrom_allFail eps f A 1 none (Nat.le_refl 1) hA
      (fun i h1 h2 => hfail i h1 (by omega))
    have hsimp : 1 + A - 1 = A := by omega
    rw [hsimp] at h
    exact ⟨by simpa using h.1, h.2⟩
  · intro k j hk1 hkA hok hfail
    have harg : 1 + (k - 1) = k := by omega
    have h := retryFrom_success eps f (k - 1) A 1 none j (Nat.le_refl 1) (by omega)
      (by rw [harg]; exact hok)
      (fun i h1 h2 => hfail i h1 (by omega))
    exact ⟨h.1, by show (retryFrom eps f 1 A none).2.length = k; rw [h.2]; omega⟩

/-- C1 witness: three endpoints, six attempts, all failing with `boom`: the
coordinator makes exactly six attempts, surfaces `boom`, and attempt 4 hits
the same endpoint as attempt 1. -/
theorem postJSONWithRetry_spec_witness :
    (postJSONWithRetry ["e1", "e2", "e3"] (fun _ _ => .error "boom") 6).2.length = 6 ∧
    (postJSONWithRetry ["e1", "e2", "e3"] (fun _ _ => .error "boom") 6).1 =
      .error "boom" ∧
    (postJSONWithRetry ["e1", "e2", "e3"] (fun _ _ => .error "boom") 6).2.getD 3 "" =
      (postJSONWithRetry ["e1", "e2", "e3"] (fun _ _ => .error "boom") 6).2.getD 0 "" := by
  have h := postJSONWithRetry_spec ["e1", "e2", "e3"] (fun _ _ => .error "boom") 6
    (by decide) (by decide)
  have h2 := h.2.1 (fun i h1 hA => ⟨"boom", rfl⟩)
  exact ⟨h2.1, h2.2 "boom" rfl, by decide⟩

/-! ## C3: relation geometry reconstruction -/

/-- C3: for every OSM relation element, the fiber normalizer emits a
LineString exactly when one member way carries geometry, a MultiLineString
with one line per geometry-carrying member way in member order when two or
more do (non-way members and members without geometry are skipped by
`relGeomLines`), and no feature at all when no member way carries geometry. -/
theorem relation_geometry_spec (el : OsmElement) (hrel : el.type = "relation") :
    (relGeomLines el = [] → elementToGeoJSONFeature el = none) ∧
    (∀ l, relGeomLines el = [l] → ∃ ff, elementToGeoJSONFeature el = some ff ∧
      ff.geometry = jobj [("type", jstr "LineString"), ("coordinates", l)]) ∧
    (∀ l1 l2 ls, relGeomLines el = l1 :: l2 :: ls →
      ∃ ff, elementToGeoJSONFeature el = some ff ∧
        ff.geometry = jobj [("type", jstr "MultiLineString"),
          ("coordinates", jarr (relGeomLines el))]) := by
  have hn : (el.type == "node") = false := by rw [hrel]; decide
  have hw : (el.type == "way") = false := by rw [hrel]; decide
  have hb : (el.type == "relation") = true := by rw [hrel]; decide
  cases hm : el.members with
  | none =>
    have hlines : relGeomLines el = [] := by simp [relGeomLines, hm]
    refine ⟨fun _ => ?_, fun l hl => ?_, fun l1 l2 ls hl => ?_⟩
    · simp [elementToGeoJSONFeature, hn, hw, hb, hm]
    · rw [hlines] at hl
      cases hl
    · rw [hlines] at hl
      cases hl
  | some ms =>
    have hms : el.members.isSome = true := by rw [hm]; rfl
    refine ⟨fun hl => ?_, fun l hl => ?_, fun l1 l2 ls hl => ?_⟩
    · simp [elementToGeoJSONFeature, hn, hw, hb, hms, hl]
    · simp only [elementToGeoJSONFeature, hn, hw, hb, hms, hl]
      exact ⟨_, rfl, rfl⟩
    · simp only [elementToGeoJSONFeature, hn, hw, hb, hms, hl]
      exact ⟨_, rfl, rfl⟩

/-- C3 witness: a relation with member ways of 2 and 3 vertices yields a
MultiLineString with exactly two line components. -/
theorem relation_geometry_spec_witness :
    ∃ ff, elementToGeoJSONFeature relTwoWays = some ff ∧
      ff.geometry = jobj [("type", jstr "MultiLineString"),
        ("coordinates", jarr (relGeomLines relTwoWays))] ∧
      (relGeomLines relTwoWays).length = 2 := by
  obtain ⟨ff, hf, hg⟩ := (relation_geometry_spec relTwoWays rfl).2.2
    (lineCoords [⟨some 1, some 2⟩, ⟨some 3, some 4⟩])
    (lineCoords [⟨some 5, some 6⟩, ⟨some 7, some 8⟩, ⟨some 9, some 10⟩]) [] rfl
  exact ⟨ff, hf, hg, rfl⟩

/-! ## C5: delimiter detection -/

theorem jsAnchoredBraceCount_eq_zero (d : Char) (s : List Char) :
    jsAnchoredBraceCount d s = 0 := by
  unfold jsAnchoredBraceCount
  rw [List.length_eq_zero, List.filter_eq_nil_iff]
  intro i _
  simp only [Bool.and_eq_true, beq_iff_eq, not_and]
  intro hlen
  subst hlen
  rw [List.drop_length]
  simp [List.isPrefixOf]

theorem detectCSVDelimiter_always_comma (s : List Char) :
    detectCSVDelimiter s = ',' := by
  unfold detectCSVDelimiter
  simp only [jsAnchoredBraceCount_eq_zero]
  decide

/-- C5 (code bug): on a sample whose only candidate delimiter occurrences are
semicolons the detector still returns the comma — the regex built from the
escaped template `\${d}` anchors at end of input and can never match, so
every candidate's count is zero and the initial comma always wins. -/
theorem detectCSVDelimiter_semicolon_bug :
    detectCSVDelimiter "name;lat;lng\nA;0.3;32.5".data = ',' :=
  detectCSVDelimiter_always_comma _

/-! ## C7, C10: free-text classifiers -/

theorem charOfNatToNat (n : Nat) (h : Nat.isValidChar n) : (Char.ofNat n).toNat = n := by
  unfold Char.ofNat
  rw [dif_pos h]
  rfl

theorem asciiLower_of_not (c : Char) (h : ¬(65 ≤ c.toNat ∧ c.toNat ≤ 90)) :
    asciiLower c = c := by
  unfold asciiLower
  rw [if_neg h]

theorem asciiLower_toNat_of_upper (c : Char) (h : 65 ≤ c.toNat ∧ c.toNat ≤ 90) :
    (asciiLower c).toNat = c.toNat + 32 := by
  unfold asciiLower
  rw [if_pos h]
  exact charOfNatToNat _ (Or.inl (by omega))

theorem asciiLower_idem (c : Char) : asciiLower (asciiLower c) = asciiLower c := by
  by_cases h : 65 ≤ c.toNat ∧ c.toNat ≤ 90
  · apply asciiLower_of_not
    rw [asciiLower_toNat_of_upper c h]
    omega
  · have h1 : asciiLower c = c := asciiLower_of_not _ h
    rw [h1, h1]

theorem lowerStr_idem (s : String) : lowerStr (lowerStr s) = lowerStr s := by
  unfold lowerStr
  have hd : (String.mk (s.data.map asciiLower)).data = s.data.map asciiLower := rfl
  rw [hd, List.map_map]
  congr 1
  apply List.map_congr_left
  intro c _
  exact asciiLower_idem c

theorem guessOwnership_shape (v : JVal) :
    guessOwnership v = "unknown" ∨ guessOwnership v = "government" ∨
    guessOwnership v = "private" ∨ guessOwnership v = "religious" ∨
    (guessOwnership v = lowerStr (jsToString v) ∧ lowerStr (jsToString v) ≠ "" ∧
      ownershipNoMatch (lowerStr (jsToString v)) = true) := by
  simp only [guessOwnership]
  split_ifs with h0 h1 h2 h3 h4
  · exact Or.inl rfl
  · exact Or.inr (Or.inl rfl)
  · exact Or.inr (Or.inr (Or.inl rfl))
  · exact Or.inr (Or.inr (Or.inr (Or.inl rfl)))
  · refine Or.inr (Or.inr (Or.inr (Or.inr ⟨rfl, ?_, ?_⟩)))
    · simpa using h4
    · simp only [ownershipNoMatch, Bool.and_eq_true, Bool.not_eq_true']
      exact ⟨⟨by simpa using h1, by simpa using h2⟩, by simpa using h3⟩
  · exact Or.inl rfl

theorem guessGender_shape (v : JVal) :
    guessGender v = "unknown" ∨ guessGender v = "boys" ∨
    guessGender v = "girls" ∨ guessGender v = "mixed" ∨
    (guessGender v = lowerStr (jsToString v) ∧ lowerStr (jsToString v) ≠ "" ∧
      genderNoMatch (lowerStr (jsToString v)) = true) := by
  simp only [guessGender]
  split_ifs with h0 h1 h2 h3 h4
  · exact Or.inl rfl
  · exact Or.inr (Or.inl rfl)
  · exact Or.inr (Or.inr (Or.inl rfl))
  · exact Or.inr (Or.inr (Or.inr (Or.inl rfl)))
  · refine Or.inr (Or.inr (Or.inr (Or.inr ⟨rfl, ?_, ?_⟩)))
    · simpa using h4
    · simp only [genderNoMatch, Bool.and_eq_true, Bool.not_eq_true']
      exact ⟨⟨by simpa using h1, by simpa using h2⟩, by simpa using h3⟩
  · exact Or.inl rfl

theorem guessOwnership_passthrough (s : String) (hne : s ≠ "")
    (hl : lowerStr s = s) (hm : ownershipNoMatch s = true) :
    guessOwnership (jstr s) = s := by
  have ht : (truthy (jstr s)) = true := by simp [truthy, hne]
  simp only [ownershipNoMatch, Bool.and_eq_true, Bool.not_eq_true'] at hm
  obtain ⟨⟨m1, m2⟩, m3⟩ := hm
  simp only [guessOwnership, ht, Bool.not_true, Bool.false_eq_true, if_false]
  have hj : jsToString (jstr s) = s := rfl
  rw [hj, hl, m1, m2, m3]
  simp [hne]

theorem guessGender_passthrough (s : String) (hne : s ≠ "")
    (hl : lowerStr s = s) (hm : genderNoMatch s = true) :
    guessGender (jstr s) = s := by
  have ht : (truthy (jstr s)) = true := by simp [truthy, hne]
  simp only [genderNoMatch, Bool.and_eq_true, Bool.not_eq_true'] at hm
  obtain ⟨⟨m1, m2⟩, m3⟩ := hm
  simp only [guessGender, ht, Bool.not_true, Bool.false_eq_true, if_false]
  have hj : jsToString (jstr s) = s := rfl
  rw [hj, hl, m1, m2, m3]
  simp [hne]

theorem guessOwnership_ne_empty (v : JVal) : guessOwnership v ≠ "" := by
  rcases guessOwnership_shape v with h | h | h | h | ⟨h, hne, _⟩ <;> rw [h]
  · decide
  · decide
  · decide
  · decide
  · exact hne

/-- C10: the free-text classifiers are idempotent — re-classifying a
classifier's own output leaves it unchanged, for both ownership and gender,
so re-running enrichment does not change these fields. -/
theorem classifiers_idempotent (v : JVal) :
    guessOwnership (jstr (guessOwnership v)) = guessOwnership v ∧
    guessGender (jstr (guessGender v)) = guessGender v := by
  constructor
  · rcases guessOwnership_shape v with h | h | h | h | ⟨h, hne, hm⟩ <;> rw [h]
    · decide
    · decide
    · decide
    · decide
    · exact guessOwnership_passthrough _ hne (lowerStr_idem _) hm
  · rcases guessGender_shape v with h | h | h | h | ⟨h, hne, hm⟩ <;> rw [h]
    · decide
    · decide
    · decide
    · decide
    · exact guessGender_passthrough _ hne (lowerStr_idem _) hm

/-- C10 witness: idempotence at a concrete free-text input. -/
theorem classifiers_idempotent_witness :
    guessOwnership (jstr (guessOwnership (jstr "Community trust"))) =
      guessOwnership (jstr "Community trust") ∧
    guessGender (jstr (guessGender (jstr "Girls only"))) =
      guessGender (jstr "Girls only") :=
  classifiers_idempotent (jstr "Community trust") |>.imp id
    (fun _ => (classifiers_idempotent (jstr "Girls only")).2)

theorem jGet_jobj (fs : List (String × JVal)) (k : String) :
    jGet (jobj fs) k = lkF fs k := rfl

/-- C7: the ownership classifier always returns one of the closed categories,
the lower-cased non-empty passthrough, or `unknown` (in particular `unknown`
for every falsy input), never a missing value; consequently the `ownership`
property written by `enrichProperties` is always a non-empty string. -/
theorem ownership_always_populated (v props : JVal) (dmap : List (String × String)) :
    (guessOwnership v = "government" ∨ guessOwnership v = "private" ∨
     guessOwnership v = "religious" ∨
     (guessOwnership v = lowerStr (jsToString v) ∧ guessOwnership v ≠ "") ∨
     guessOwnership v = "unknown") ∧
    (truthy v = false → guessOwnership v = "unknown") ∧
    (∃ s, jGet (enrichProperties props dmap) "ownership" = jstr s ∧ s ≠ "") := by
  refine ⟨?_, ?_, ?_⟩
  · rcases guessOwnership_shape v with h | h | h | h | ⟨h, hne, _⟩
    · exact Or.inr (Or.inr (Or.inr (Or.inr h)))
    · exact Or.inl h
    · exact Or.inr (Or.inl h)
    · exact Or.inr (Or.inr (Or.inl h))
    · exact Or.inr (Or.inr (Or.inr (Or.inl ⟨h, by rw [h]; exact hne⟩)))
  · intro hf
    simp [guessOwnership, hf]
  · simp only [enrichProperties]
    rw [jGet_jobj, lkF_setField_ne _ _ _ _ (by decide),
      lkF_setField_ne _ _ _ _ (by decide), lkF_setField_ne _ _ _ _ (by decide),
      lkF_setField_self]
    exact ⟨_, rfl, guessOwnership_ne_empty _⟩

/-- C7 witness: a falsy input classifies as `unknown`, and enriching an empty
property set still populates `ownership`. -/
theorem ownership_always_populated_witness :
    guessOwnership jnull = "unknown" ∧
    jGet (enrichProperties (jobj []) []) "ownership" = jstr "unknown" :=
  ⟨(ownership_always_populated jnull (jobj []) []).2.1 rfl, rfl⟩

/-! ## C8: district → region resolution -/

theorem spread_jobj_lookup (fs : List (String × JVal)) (k : String) :
    List.lookup k (jSpreadFields (jobj fs)) = List.lookup k fs.reverse := by
  show List.lookup k (fs.foldl (fun acc kv => setField acc kv.1 kv.2) []) = _
  rw [foldl_setField_lookup]
  cases h : List.lookup k fs.reverse with
  | some v => rfl
  | none => rfl

theorem revLookup_setField_self (fs : List (String × JVal)) (k : String) (v : JVal) :
    List.lookup k (setField fs k v).reverse = some v := by
  unfold setField
  by_cases h : (fs.any (fun kv => kv.1 == k)) = true
  · rw [if_pos h, ← List.map_reverse]
    apply lookup_mapRepl_eq
    rw [List.any_reverse]
    exact h
  · rw [if_neg h, List.reverse_append]
    show List.lookup k ((k, v) :: fs.reverse) = some v
    exact lookup_cons_eq _ _ _

theorem revLookup_setField_ne (fs : List (String × JVal)) (k kq : String) (v : JVal)
    (h : kq ≠ k) :
    List.lookup kq (setField fs k v).reverse = List.lookup kq fs.reverse := by
  unfold setField
  by_cases ha : (fs.any (fun kv => kv.1 == k)) = true
  · rw [if_pos ha, ← List.map_reverse]
    exact lookup_mapRepl_ne k kq v h fs.reverse
  · rw [if_neg ha, List.reverse_append]
    show List.lookup kq ((k, v) :: fs.reverse) = _
    exact lookup_cons_ne _ _ _ _ h

theorem lkF_spread (fs : List (String × JVal)) (k : String) :
    lkF (jSpreadFields (jobj fs)) k = (List.lookup k fs.reverse).getD jnull := by
  unfold lkF
  rw [spread_jobj_lookup]

theorem lkF_spread_setField_self (fs : List (String × JVal)) (k : String) (v : JVal) :
    lkF (jSpreadFields (jobj (setField fs k v))) k = v := by
  rw [lkF_spread, revLookup_setField_self]
  rfl

theorem lkF_spread_setField_ne (fs : List (String × JVal)) (k kq : String) (v : JVal)
    (h : kq ≠ k) :
    lkF (jSpreadFields (jobj (setField fs k v))) kq = lkF (jSpreadFields (jobj fs)) kq := by
  rw [lkF_spread, lkF_spread, revLookup_setField_ne _ _ _ _ h]

/-- The region value `enrichProperties` writes, characterized in terms of the
spread input fields: explicit region-like field first, else the district
lookup, else null. -/
theorem enrich_region_char (props : JVal) (dmap : List (String × String)) :
    jGet (enrichProperties props dmap) "region" =
      (let p := jSpreadFields props
       let district := jOr (lkF p "district") (jOr (lkF p "addr:district")
         (jOr (lkF p "is_in:district") (jOr (lkF p "admin2")
           (jOr (lkF p "ADM2_NAME") (lkF p "subcounty")))))
       let stored := if truthy district then district else jnull
       let region0 := jOr (lkF p "region")
         (jOr (lkF p "ADM1_NAME") (jOr (lkF p "province") jnull))
       if !truthy region0 && truthy stored then
         match dmap.lookup (normalizeDistrictName stored) with
         | some r => jstr r
         | none => jnull
       else region0) := by
  simp only [enrichProperties]
  rw [jGet_jobj, lkF_setField_self]
  simp only [lkF_setField_self, lkF_setField_ne _ _ _ _ (by decide : ("district" : String) ≠ "gender"),
    lkF_setField_ne _ _ _ _ (by decide : ("district" : String) ≠ "ownership"),
    lkF_setField_ne _ _ _ _ (by decide : ("addr:district" : String) ≠ "gender"),
    lkF_setField_ne _ _ _ _ (by decide : ("addr:district" : String) ≠ "ownership"),
    lkF_setField_ne _ _ _ _ (by decide : ("is_in:district" : String) ≠ "gender"),
    lkF_setField_ne _ _ _ _ (by decide : ("is_in:district" : String) ≠ "ownership"),
    lkF_setField_ne _ _ _ _ (by decide : ("admin2" : String) ≠ "gender"),
    lkF_setField_ne _ _ _ _ (by decide : ("admin2" : String) ≠ "ownership"),
    lkF_setField_ne _ _ _ _ (by decide : ("ADM2_NAME" : String) ≠ "gender"),
    lkF_setField_ne _ _ _ _ (by decide : ("ADM2_NAME" : String) ≠ "ownership"),
    lkF_setField_ne _ _ _ _ (by decide : ("subcounty" : String) ≠ "gender"),
    lkF_setField_ne _ _ _ _ (by decide : ("subcounty" : String) ≠ "ownership"),
    lkF_setField_ne _ _ _ _ (by decide : ("region" : String) ≠ "district"),
    lkF_setField_ne _ _ _ _ (by decide : ("region" : String) ≠ "gender"),
    lkF_setField_ne _ _ _ _ (by decide : ("region" : String) ≠ "ownership"),
    lkF_setField_ne _ _ _ _ (by decide : ("ADM1_NAME" : String) ≠ "district"),
    lkF_setField_ne _ _ _ _ (by decide : ("ADM1_NAME" : String) ≠ "gender"),
    lkF_setField_ne _ _ _ _ (by decide : ("ADM1_NAME" : String) ≠ "ownership"),
    lkF_setField_ne _ _ _ _ (by decide : ("province" : String) ≠ "district"),
    lkF_setField_ne _ _ _ _ (by decide : ("province" : String) ≠ "gender"),
    lkF_setField_ne _ _ _ _ (by decide : ("province" : String) ≠ "ownership")]

/-- C8 (amended): region resolution is invariant under any variation of a
*non-empty* district string that preserves its normalized form — for every
lookup table, every property set, and every pair of non-empty district
strings with equal `normalizeDistrictName`, enrichment yields the identical
region value. (An empty district string is falsy and falls through to the
`addr:district`/`is_in:district` synonym chain, so the invariance does not
extend to it.) -/
theorem region_resolution_normalized (fs : List (String × JVal))
    (dmap : List (String × String)) (d1 d2 : String)
    (h1 : d1 ≠ "") (h2 : d2 ≠ "")
    (hn : normalizeDistrictName (jstr d1) = normalizeDistrictName (jstr d2)) :
    jGet (enrichProperties (jobj (setField fs "district" (jstr d1))) dmap) "region" =
      jGet (enrichProperties (jobj (setField fs "district" (jstr d2))) dmap) "region" := by
  rw [enrich_region_char, enrich_region_char]
  simp only [lkF_spread_setField_self,
    lkF_spread_setField_ne _ _ _ _ (by decide : ("addr:district" : String) ≠ "district"),
    lkF_spread_setField_ne _ _ _ _ (by decide : ("is_in:district" : String) ≠ "district"),
    lkF_spread_setField_ne _ _ _ _ (by decide : ("admin2" : String) ≠ "district"),
    lkF_spread_setField_ne _ _ _ _ (by decide : ("ADM2_NAME" : String) ≠ "district"),
    lkF_spread_setField_ne _ _ _ _ (by decide : ("subcounty" : String) ≠ "district"),
    lkF_spread_setField_ne _ _ _ _ (by decide : ("region" : String) ≠ "district"),
    lkF_spread_setField_ne _ _ _ _ (by decide : ("ADM1_NAME" : String) ≠ "district"),
    lkF_spread_setField_ne _ _ _ _ (by decide : ("province" : String) ≠ "district")]
  have t1 : truthy (jstr d1) = true := by simp [truthy, h1]
  have t2 : truthy (jstr d2) = true := by simp [truthy, h2]
  simp only [jOr, t1, t2, if_true, hn]

/-- C8 counterexample to the unrestricted claim: the district strings `""`
and `" "` have the same normalized form, yet enriching a record carrying an
`addr:district` fallback yields `Central` for the first (the falsy empty
string falls through to the fallback chain) and `null` for the second. -/
theorem region_resolution_counterexample :
    normalizeDistrictName (jstr "") = normalizeDistrictName (jstr " ") ∧
    jGet (enrichProperties (jobj (setField fsAddrDistrict "district" (jstr "")))
      dmapKampala) "region" = jstr "Central" ∧
    jGet (enrichProperties (jobj (setField fsAddrDistrict "district" (jstr " ")))
      dmapKampala) "region" = jnull :=
  ⟨rfl, rfl, rfl⟩

/-- C8 witness: the specification's own example pair, `"Kampala District"`
and `"  kampala "`, resolve to the identical region. -/
theorem region_resolution_normalized_witness :
    jGet (enrichProperties (jobj (setField [] "district" (jstr "Kampala District")))
      dmapKampala) "region" =
    jGet (enrichProperties (jobj (setField [] "district" (jstr "  kampala ")))
      dmapKampala) "region" :=
  region_resolution_normalized [] dmapKampala "Kampala District" "  kampala "
    (by decide) (by decide) (by decide)

/-! ## C4: all-numeric coordinate leaves -/

theorem jGet_pair_coords (t c : JVal) :
    jGet (jobj [("type", t), ("coordinates", c)]) "coordinates" = c := rfl

theorem allNumLeavesList_eq_all (xs : List JVal) :
    allNumLeavesList xs = xs.all allNumLeaves := by
  induction xs with
  | nil => rfl
  | cons x t ih => simp [allNumLeavesList, ih]

theorem coordCheckFails_false (geom : JVal) (h : coordCheckFails geom = false) :
    truthy geom = true ∧
    ∃ xs, jGet geom "coordinates" = jarr xs ∧ xs.all JVal.isNum = true := by
  unfold coordCheckFails at h
  rw [Bool.or_eq_false_iff] at h
  obtain ⟨h1, h2⟩ := h
  refine ⟨by simpa using h1, ?_⟩
  cases hc : jGet geom "coordinates" with
  | jarr xs =>
    rw [hc] at h2
    have h2x : (xs.any fun x => !x.isNum) = false := h2
    refine ⟨xs, rfl, ?_⟩
    rw [List.all_eq_true]
    intro x hx
    by_contra hb
    have hany : (xs.any fun x => !x.isNum) = true :=
      List.any_eq_true.2 ⟨x, hx, by simpa using hb⟩
    rw [hany] at h2x
    cases h2x
  | jnull => rw [hc] at h2; exact Bool.noConfusion (show true = false from h2)
  | jbool b => rw [hc] at h2; exact Bool.noConfusion (show true = false from h2)
  | jnum q => rw [hc] at h2; exact Bool.noConfusion (show true = false from h2)
  | jstr s => rw [hc] at h2; exact Bool.noConfusion (show true = false from h2)
  | jobj fs2 => rw [hc] at h2; exact Bool.noConfusion (show true = false from h2)

theorem coerceToPoints_sound :
    ∀ (fs out : List JVal), coerceToPoints fs = .ok out →
      ∀ f2 ∈ out, ∃ geom props,
        f2 = jobj [("type", jstr "Feature"), ("geometry", geom),
          ("properties", props)] ∧ truthy geom = true ∧
        ∃ xs, jGet geom "coordinates" = jarr xs ∧ xs.all JVal.isNum = true
  | [], out, h => by
    cases h
    intro f2 hf2
    cases hf2
  | f :: rest, out, h => by
    rw [coerceToPoints] at h
    cases hg : jGetE f "geometry" with
    | error e => rw [hg] at h; cases h
    | ok g =>
      rw [hg] at h
      simp only [bind, Except.bind] at h
      cases htp : toPointGeometry g with
      | error e => rw [htp] at h; cases h
      | ok geom =>
        rw [htp] at h
        simp only [bind, Except.bind] at h
        by_cases hc : coordCheckFails geom = true
        · rw [if_pos hc] at h
          exact coerceToPoints_sound rest out h
        · rw [if_neg hc] at h
          cases hr : coerceToPoints rest with
          | error e => rw [hr] at h; cases h
          | ok out2 =>
            rw [hr] at h
            simp only [bind, Except.bind] at h
            cases h
            intro f2 hf2
            rcases List.mem_cons.1 hf2 with hf2 | hf2
            · subst hf2
              obtain ⟨ht, hxs⟩ := coordCheckFails_false geom
                (Bool.not_eq_true _ ▸ hc)
              exact ⟨geom, _, rfl, ht, hxs⟩
            · exact coerceToPoints_sound rest out2 hr f2 hf2

theorem coerceToPoints_drop (f : JVal) (rest : List JVal) (g geom : JVal)
    (hg : jGetE f "geometry" = .ok g) (ht : toPointGeometry g = .ok geom)
    (hc : coordCheckFails geom = true) :
    coerceToPoints (f :: rest) = coerceToPoints rest := by
  rw [coerceToPoints, hg]
  simp only [bind, Except.bind]
  rw [ht]
  simp only [hc, if_true]

theorem rowsToGeoJSON_sound (rows : List (List (String × String))) (outR : List JVal)
    (h : rowsToGeoJSON rows = .ok outR) :
    ∀ f ∈ outR, ∃ a b props,
      f = jobj [("type", jstr "Feature"),
        ("geometry", mkPointGeom (jarr [jnum a, jnum b])), ("properties", props)] := by
  cases rows with
  | nil =>
    cases h
    intro f hf
    cases hf
  | cons first t =>
    rw [rowsToGeoJSON] at h
    cases hlat : detectField (first.map Prod.fst)
        ["lat", "latitude", "y", "geom_lat", "Latitude", "Lat"] with
    | none => rw [hlat] at h; cases h
    | some lq =>
      cases hlon : detectField (first.map Prod.fst)
          ["lon", "lng", "longitude", "x", "geom_lon", "Longitude", "Long", "Lng"] with
      | none => rw [hlat, hlon] at h; cases h
      | some loq =>
        rw [hlat, hlon] at h
        simp only [Except.ok.injEq] at h
        subst h
        intro f hf
        rcases List.mem_filterMap.1 hf with ⟨r, _, hr⟩
        cases hla : toNumber (r.lookup lq) with
        | none => rw [hla] at hr; cases hr
        | some lat =>
          cases hlo : toNumber (r.lookup loq) with
          | none => rw [hla, hlo] at hr; cases hr
          | some lon =>
            rw [hla, hlo] at hr
            simp only [Option.some.injEq] at hr
            exact ⟨lon, lat, _, hr.symm⟩

theorem allNumLeaves_lineCoords (pts : List OsmPt)
    (h : ∀ p ∈ pts, p.lon.isSome = true ∧ p.lat.isSome = true) :
    allNumLeaves (lineCoords pts) = true := by
  induction pts with
  | nil => rfl
  | cons p t ih =>
    obtain ⟨hlon, hlat⟩ := h p (List.mem_cons_self p t)
    obtain ⟨a, ha⟩ := Option.isSome_iff_exists.1 hlon
    obtain ⟨b, hb⟩ := Option.isSome_iff_exists.1 hlat
    show allNumLeavesList (ptCoords p :: t.map ptCoords) = true
    have hrec : allNumLeavesList (t.map ptCoords) = true :=
      ih (fun q hq => h q (List.mem_cons_of_mem p hq))
    simp only [allNumLeavesList, hrec, Bool.and_true]
    simp [ptCoords, ha, hb, allNumLeaves, allNumLeavesList]

theorem elementToGeoJSONFeature_numeric (el : OsmElement)
    (hgeo : ∀ pts, el.geometry = some pts →
      ∀ p ∈ pts, p.lon.isSome = true ∧ p.lat.isSome = true)
    (hmem : ∀ ms, el.members = some ms → ∀ m ∈ ms, ∀ pts, m.geometry = some pts →
      ∀ p ∈ pts, p.lon.isSome = true ∧ p.lat.isSome = true) :
    ∀ ff, elementToGeoJSONFeature el = some ff →
      truthy ff.geometry = true ∧ allNumLeaves (jGet ff.geometry "coordinates") = true := by
  intro ff hff
  have hlines : ∀ l ∈ relGeomLines el, allNumLeaves l = true := by
    intro l hl
    rcases List.mem_filterMap.1 hl with ⟨m, hmIn, hmEq⟩
    by_cases hw : (m.type == "way") = true
    · rw [if_pos hw] at hmEq
      cases hgm : m.geometry with
      | none => rw [hgm] at hmEq; cases hmEq
      | some pts =>
        rw [hgm] at hmEq
        simp only [Option.map_some', Option.some.injEq] at hmEq
        subst hmEq
        cases hms : el.members with
        | none => rw [hms] at hmIn; cases hmIn
        | some ms =>
          rw [hms] at hmIn
          exact allNumLeaves_lineCoords pts (hmem ms hms m (by simpa using hmIn) pts hgm)
    · rw [if_neg hw] at hmEq
      cases hmEq
  rw [elementToGeoJSONFeature] at hff
  by_cases hnode : (el.type == "node" && el.lon.isSome && el.lat.isSome) = true
  · rw [if_pos hnode] at hff
    simp only [Option.some.injEq] at hff
    subst hff
    exact ⟨rfl, rfl⟩
  · rw [if_neg hnode] at hff
    by_cases hway : (el.type == "way" && el.geometry.isSome) = true
    · rw [if_pos hway] at hff
      simp only [Option.some.injEq] at hff
      subst hff
      refine ⟨rfl, ?_⟩
      have hg : el.geometry.isSome = true := by
        simp only [Bool.and_eq_true] at hway
        exact hway.2
      obtain ⟨pts, hpts⟩ := Option.isSome_iff_exists.1 hg
      show allNumLeaves (jGet (jobj [("type", jstr "LineString"),
        ("coordinates", lineCoords (el.geometry.getD []))]) "coordinates") = true
      rw [jGet_pair_coords, hpts]
      exact allNumLeaves_lineCoords pts (hgeo pts hpts)
    · rw [if_neg hway] at hff
      by_cases hrel : (el.type == "relation" && el.members.isSome) = true
      · rw [if_pos hrel] at hff
        cases hls : relGeomLines el with
        | nil => rw [hls] at hff; cases hff
        | cons l1 ls =>
          cases ls with
          | nil =>
            rw [hls] at hff
            simp only [Option.some.injEq] at hff
            subst hff
            refine ⟨rfl, ?_⟩
            rw [jGet_pair_coords]
            exact hlines l1 (by rw [hls]; exact List.mem_cons_self _ _)
          | cons l2 ls2 =>
            rw [hls] at hff
            simp only [Option.some.injEq] at hff
            subst hff
            refine ⟨rfl, ?_⟩
            rw [jGet_pair_coords]
            show allNumLeavesList (l1 :: l2 :: ls2) = true
            rw [allNumLeavesList_eq_all, List.all_eq_true]
            intro l hl
            exact hlines l (by rw [hls]; exact hl)
      · rw [if_neg hrel] at hff
        cases hff

/-- C4 (amended): every feature the schools pipeline emits
(`coerceToPoints`, `rowsToGeoJSON`) has truthy (non-null) geometry whose
coordinate leaves are all numbers, and a schools record whose collapsed
geometry fails the numeric-coordinates check is dropped; a feature the fiber
pipeline emits has truthy geometry, and its coordinate leaves are all
numbers *provided* every geometry vertex of the element and of its member
ways carries numeric lon and lat (the source does not check the vertices
themselves, so this proviso cannot be removed). -/
theorem emitted_features_numeric
    (fs out : List JVal) (rows : List (List (String × String))) (outR : List JVal)
    (el : OsmElement)
    (hc : coerceToPoints fs = .ok out) (hr : rowsToGeoJSON rows = .ok outR)
    (hgeo : ∀ pts, el.geometry = some pts →
      ∀ p ∈ pts, p.lon.isSome = true ∧ p.lat.isSome = true)
    (hmem : ∀ ms, el.members = some ms → ∀ m ∈ ms, ∀ pts, m.geometry = some pts →
      ∀ p ∈ pts, p.lon.isSome = true ∧ p.lat.isSome = true) :
    (∀ f ∈ out, truthy (jGet f "geometry") = true ∧
      allNumLeaves (jGet (jGet f "geometry") "coordinates") = true) ∧
    (∀ f ∈ outR, truthy (jGet f "geometry") = true ∧
      allNumLeaves (jGet (jGet f "geometry") "coordinates") = true) ∧
    (∀ ff, elementToGeoJSONFeature el = some ff →
      truthy ff.geometry = true ∧ allNumLeaves (jGet ff.geometry "coordinates") = true) ∧
    (∀ f2 rest g geom, jGetE f2 "geometry" = .ok g → toPointGeometry g = .ok geom →
      coordCheckFails geom = true →
      coerceToPoints (f2 :: rest) = coerceToPoints rest) := by
  refine ⟨?_, ?_, elementToGeoJSONFeature_numeric el hgeo hmem,
    fun f2 rest g geom => coerceToPoints_drop f2 rest g geom⟩
  · intro f hf
    obtain ⟨geom, props, hfe, ht, xs, hxs, hall⟩ := coerceToPoints_sound fs out hc f hf
    subst hfe
    have hgq : jGet (jobj [("type", jstr "Feature"), ("geometry", geom),
        ("properties", props)]) "geometry" = geom := rfl
    rw [hgq, ht, hxs]
    refine ⟨rfl, ?_⟩
    rw [show allNumLeaves (jarr xs) = allNumLeavesList xs from rfl,
      allNumLeavesList_eq_all, List.all_eq_true]
    intro x hx
    have hnum := List.all_eq_true.1 hall x hx
    cases x with
    | jnum q => rfl
    | jnull => cases hnum
    | jbool b => cases hnum
    | jstr s => cases hnum
    | jarr ys => cases hnum
    | jobj fs2 => cases hnum
  · intro f hf
    obtain ⟨a, b, props, hfe⟩ := rowsToGeoJSON_sound rows outR hr f hf
    subst hfe
    exact ⟨rfl, rfl⟩

/-- C4 counterexample to the unrestricted claim: a way whose single geometry
vertex lacks a numeric longitude is still emitted by the fiber normalizer,
and the emitted feature's coordinates contain a non-numeric leaf. -/
theorem emitted_features_numeric_counterexample :
    (elementToGeoJSONFeature badWay).isSome = true ∧
    (elementToGeoJSONFeature badWay).map
      (fun ff => allNumLeaves (jGet ff.geometry "coordinates")) = some false := by
  exact ⟨rfl, rfl⟩

/-- C4 witness: a Point feature passes `coerceToPoints` and the emitted
feature satisfies the invariant; a node element's feature does too. -/
theorem emitted_features_numeric_witness :
    (truthy (jGet pointFeatOut "geometry") = true ∧
      allNumLeaves (jGet (jGet pointFeatOut "geometry") "coordinates") = true) ∧
    (elementToGeoJSONFeature nodeEl).map
      (fun ff => truthy ff.geometry && allNumLeaves (jGet ff.geometry "coordinates")) =
      some true := by
  have h := emitted_features_numeric [pointFeat] [pointFeatOut] [] [] nodeEl
    rfl rfl (fun pts hp => nomatch hp) (fun ms hm => nomatch hm)
  refine ⟨h.1 pointFeatOut (List.mem_singleton.2 rfl), ?_⟩
  have he : elementToGeoJSONFeature nodeEl = some
      ⟨"node/1", mkPointGeom (jarr [jnum 1, jnum 2]),
        commonProps nodeEl ++ [("feature_type", featureTypeOf nodeEl),
          ("tags", jobj [])]⟩ := rfl
  have h3 := h.2.2.1 _ he
  rw [he]
  simp only [Option.map_some']
  simp [h3.1, h3.2]

/-! ## C6: collapse to point geometry -/

theorem centroidFold_go :
    ∀ (cs : List JVal) (acc : Rat × Rat × Nat),
      cs.foldl (fun (acc : Rat × Rat × Nat) c =>
        match c with
        | jarr (jnum a :: jnum b :: _) => (acc.1 + a, acc.2.1 + b, acc.2.2 + 1)
        | _ => acc) acc =
      (acc.1 + ((validPairs cs).map Prod.fst).sum,
       acc.2.1 + ((validPairs cs).map Prod.snd).sum,
       acc.2.2 + (validPairs cs).length)
  | [], acc => by simp [validPairs]
  | c :: t, acc => by
    have ih := centroidFold_go t
    rw [List.foldl_cons]
    rcases c with _ | b0 | q0 | s0 | xs0 | fs0
    · rw [ih]; rfl
    · rw [ih]; rfl
    · rw [ih]; rfl
    · rw [ih]; rfl
    · rcases xs0 with _ | ⟨x, xs2⟩
      · rw [ih]; rfl
      · rcases x with _ | b1 | qa | s1 | ya | fa
        · rw [ih]; rfl
        · rw [ih]; rfl
        · rcases xs2 with _ | ⟨y, ys⟩
          · rw [ih]; rfl
          · rcases y with _ | b2 | qb | s2 | yb | fb
            · rw [ih]; rfl
            · rw [ih]; rfl
            · rw [ih]
              simp only [validPairs, List.map_cons, List.sum_cons, List.length_cons,
                Prod.mk.injEq]
              refine ⟨by ring, by ring, by omega⟩
            · rw [ih]; rfl
            · rw [ih]; rfl
            · rw [ih]; rfl
        · rw [ih]; rfl
        · rw [ih]; rfl
        · rw [ih]; rfl
    · rw [ih]; rfl

theorem basicCentroidArr_eq (cs : List JVal) :
    basicCentroidArr cs = centroidVal (validPairs cs) := by
  unfold basicCentroidArr centroidFold centroidVal
  rw [centroidFold_go]
  simp

theorem isStr_ne (v : JVal) (a b : String) (h : isStr v a = true) (hne : a ≠ b) :
    isStr v b = false := by
  cases v with
  | jstr s =>
    simp only [isStr, beq_iff_eq] at h ⊢
    subst h
    simpa using hne
  | jnull => rfl
  | jbool b2 => rfl
  | jnum q => rfl
  | jarr xs => rfl
  | jobj fs => rfl

/-- C6 (amended): on the Point-only schools path, a `MultiPoint` is collapsed
to its *first* coordinate entry (not a centroid); `LineString`,
`MultiLineString`, `Polygon` and `MultiPolygon` are collapsed to the
arithmetic centroid (component-wise mean) of the numeric coordinate pairs at
the top level of their (0, 1, 1 and 2 times flattened, respectively)
coordinate arrays; and a record whose collapsed geometry fails the
numeric-coordinate check (in particular a centroid over zero valid pairs,
which produces null coordinates) is dropped from the output collection. -/
theorem point_collapse_spec (g : JVal) (xs : List JVal) :
    (truthy g = true → isStr (jGet g "type") "MultiPoint" = true →
      jGet g "coordinates" = jarr xs →
      toPointGeometry g = .ok (mkPointGeom (xs.headD jnull))) ∧
    (truthy g = true → isStr (jGet g "type") "LineString" = true →
      jGet g "coordinates" = jarr xs →
      toPointGeometry g = .ok (mkPointGeom (centroidVal (validPairs xs)))) ∧
    (truthy g = true → isStr (jGet g "type") "MultiLineString" = true →
      jGet g "coordinates" = jarr xs →
      toPointGeometry g = .ok (mkPointGeom (centroidVal (validPairs (flatOnce xs))))) ∧
    (truthy g = true → isStr (jGet g "type") "Polygon" = true →
      jGet g "coordinates" = jarr xs →
      toPointGeometry g = .ok (mkPointGeom (centroidVal (validPairs (flatOnce xs))))) ∧
    (truthy g = true → isStr (jGet g "type") "MultiPolygon" = true →
      jGet g "coordinates" = jarr xs →
      toPointGeometry g =
        .ok (mkPointGeom (centroidVal (validPairs (flatOnce (flatOnce xs)))))) ∧
    (∀ f2 rest geom, jGetE f2 "geometry" = .ok g → toPointGeometry g = .ok geom →
      coordCheckFails geom = true → coerceToPoints (f2 :: rest) = coerceToPoints rest) := by
  refine ⟨?_, ?_, ?_, ?_, ?_, fun f2 rest geom => coerceToPoints_drop f2 rest g geom⟩
  · intro ht hty hc
    rw [toPointGeometry, if_neg (by simp [ht]),
      if_neg (by rw [isStr_ne _ _ _ hty (by decide)]; simp), if_pos hty, hc]
    simp [bind, Except.bind, jIndexZero]
  · intro ht hty hc
    rw [toPointGeometry, if_neg (by simp [ht]),
      if_neg (by rw [isStr_ne _ _ _ hty (by decide)]; simp),
      if_neg (by rw [isStr_ne _ _ _ hty (by decide)]; simp), if_pos hty, hc]
    simp [bind, Except.bind, basicCentroid, basicCentroidArr_eq]
  · intro ht hty hc
    rw [toPointGeometry, if_neg (by simp [ht]),
      if_neg (by rw [isStr_ne _ _ _ hty (by decide)]; simp),
      if_neg (by rw [isStr_ne _ _ _ hty (by decide)]; simp),
      if_neg (by rw [isStr_ne _ _ _ hty (by decide)]; simp), if_pos hty, hc]
    simp [bind, Except.bind, jsFlat1, basicCentroid, basicCentroidArr_eq]
  · intro ht hty hc
    rw [toPointGeometry, if_neg (by simp [ht]),
      if_neg (by rw [isStr_ne _ _ _ hty (by decide)]; simp),
      if_neg (by rw [isStr_ne _ _ _ hty (by decide)]; simp),
      if_neg (by rw [isStr_ne _ _ _ hty (by decide)]; simp),
      if_neg (by rw [isStr_ne _ _ _ hty (by decide)]; simp), if_pos hty, hc]
    simp [bind, Except.bind, jsFlat1, basicCentroid, basicCentroidArr_eq]
  · intro ht hty hc
    rw [toPointGeometry, if_neg (by simp [ht]),
      if_neg (by rw [isStr_ne _ _ _ hty (by decide)]; simp),
      if_neg (by rw [isStr_ne _ _ _ hty (by decide)]; simp),
      if_neg (by rw [isStr_ne _ _ _ hty (by decide)]; simp),
      if_neg (by rw [isStr_ne _ _ _ hty (by decide)]; simp),
      if_neg (by rw [isStr_ne _ _ _ hty (by decide)]; simp), if_pos hty, hc]
    simp [bind, Except.bind, jsFlat1, basicCentroid, basicCentroidArr_eq]

/-- C6 counterexample to the claim as stated: for the MultiPoint
`[[0,0],[2,2]]` the code returns the *first* point `[0,0]`, while the
specification's centroid of all numeric pairs is `(1,1)`. -/
theorem point_collapse_counterexample :
    toPointGeometry mpTwoPoints = .ok (mkPointGeom (jarr [jnum 0, jnum 0])) ∧
    specCentroid mpTwoPoints = some (1, 1) ∧ (0 : Rat) ≠ 1 := by
  refine ⟨rfl, ?_, by norm_num⟩
  have h : specCentroid mpTwoPoints =
      some (((0 : Rat) + (2 + 0)) / 2, ((0 : Rat) + (2 + 0)) / 2) := rfl
  rw [h]
  norm_num

/-- C6 witness: the LineString `[[0,0],[2,2]]` collapses to the centroid of
its valid pairs, which evaluates to the point `[1,1]`. -/
theorem point_collapse_spec_witness :
    toPointGeometry lsTwoPoints =
      .ok (mkPointGeom (centroidVal
        (validPairs [jarr [jnum 0, jnum 0], jarr [jnum 2, jnum 2]]))) ∧
    centroidVal (validPairs [jarr [jnum 0, jnum 0], jarr [jnum 2, jnum 2]]) =
      jarr [jnum 1, jnum 1] := by
  constructor
  · exact (point_collapse_spec lsTwoPoints
      [jarr [jnum 0, jnum 0], jarr [jnum 2, jnum 2]]).2.1 rfl rfl rfl
  · have h : centroidVal (validPairs [jarr [jnum 0, jnum 0], jarr [jnum 2, jnum 2]]) =
        jarr [jnum (((0 : Rat) + (2 + 0)) / 2), jnum (((0 : Rat) + (2 + 0)) / 2)] := rfl
    rw [h]
    norm_num

/-! ## C9: CSV rows -/

theorem buildRow_eq_entries (hd cols : List String) :
    buildRow hd cols = ((List.range hd.length).map
      (fun j => (effKey hd j, cols.getD j ""))).foldl
      (fun acc kv => setField acc kv.1 kv.2) [] := by
  unfold buildRow
  rw [List.foldl_map]

theorem buildRow_keys (hd cols : List String) :
    ((buildRow hd cols).map Prod.fst).Nodup ∧
    ∀ kq, kq ∈ (buildRow hd cols).map Prod.fst ↔
      ∃ j, j < hd.length ∧ effKey hd j = kq := by
  rw [buildRow_eq_entries]
  have h := foldl_setField_keys
    ((List.range hd.length).map fun j => (effKey hd j, cols.getD j "")) [] (by simp)
  refine ⟨h.1, fun kq => ?_⟩
  rw [h.2 kq]
  simp only [List.map_map, List.map_nil, List.not_mem_nil, or_false, List.mem_map,
    List.mem_range, Function.comp_apply]

theorem revRange_lookup (hd cols : List String) :
    ∀ (H j : Nat), j < H →
      (∀ j2, j < j2 → j2 < H → effKey hd j2 ≠ effKey hd j) →
      List.lookup (effKey hd j) (((List.range H).map
        (fun i => (effKey hd i, cols.getD i ""))).reverse) = some (cols.getD j "")
  | 0, j, hj, _ => by omega
  | H + 1, j, hj, hlast => by
    rw [List.range_succ, List.map_append, List.reverse_append]
    simp only [List.map_cons, List.map_nil, List.reverse_cons, List.reverse_nil,
      List.nil_append, List.singleton_append]
    by_cases hjH : j = H
    · subst hjH
      exact lookup_cons_eq _ _ _
    · rw [lookup_cons_ne _ _ _ _
        (fun he => (hlast H (by omega) (by omega)) he.symm)]
      exact revRange_lookup hd cols H j (by omega)
        (fun j2 h1 h2 => hlast j2 h1 (by omega))

theorem buildRow_lookup_last (hd cols : List String) (j : Nat) (hj : j < hd.length)
    (hlast : ∀ j2, j < j2 → j2 < hd.length → effKey hd j2 ≠ effKey hd j) :
    (buildRow hd cols).lookup (effKey hd j) = some (cols.getD j "") := by
  rw [buildRow_eq_entries, foldl_setField_lookup,
    revRange_lookup hd cols hd.length j hj hlast]

theorem getD_take (cols : List String) (H j : Nat) (hj : j < H) :
    (cols.take H).getD j "" = cols.getD j "" := by
  induction cols generalizing H j with
  | nil => simp
  | cons c t ih =>
    cases H with
    | zero => omega
    | succ H2 =>
      cases j with
      | zero => simp
      | succ j2 =>
        simp only [List.take_succ_cons, List.getD_cons_succ]
        exact ih H2 j2 (by omega)

theorem buildRow_take (hd cols : List String) :
    buildRow hd cols = buildRow hd (cols.take hd.length) := by
  unfold buildRow
  have key : ∀ (js : List Nat) (o : List (String × String)),
      (∀ j ∈ js, j < hd.length) →
      js.foldl (fun o j => setField o (effKey hd j) (cols.getD j "")) o =
      js.foldl (fun o j => setField o (effKey hd j) ((cols.take hd.length).getD j "")) o := by
    intro js
    induction js with
    | nil => intro o _; rfl
    | cons j t ih =>
      intro o hmem
      simp only [List.foldl_cons]
      rw [getD_take cols hd.length j (hmem j (List.mem_cons_self j t))]
      exact ih _ (fun j2 hj2 => hmem j2 (List.mem_cons_of_mem j hj2))
  exact key (List.range hd.length) [] (fun j hj => List.mem_range.1 hj)

theorem length_filterMap_countP {α β : Type} (f : α → Option β) (l : List α) :
    (l.filterMap f).length = l.countP (fun x => (f x).isSome) := by
  induction l with
  | nil => rfl
  | cons x t ih =>
    rw [List.filterMap_cons, List.countP_cons]
    cases hf : f x with
    | none => simp [hf, ih]
    | some b => simp [hf, ih]

theorem parseCSV_eq_filterMap (text : String) (hline : List Char) (rest : List (List Char))
    (hl : csvLines text = hline :: rest) :
    parseCSV text = rest.filterMap (fun line =>
      if line.isEmpty || jsTrim line == [] then none
      else some (buildRow (headerOf text) (splitLine (csvDelim text) line))) := by
  unfold parseCSV
  rw [hl]

/-- C9 (amended): every row object `parseCSV` produces has exactly one entry
per *distinct* effective header key (an empty header cell contributes the
synthetic key `col_j`; a duplicated key collapses to one entry holding the
value of its last occurrence); a column whose key does not recur later maps
to its cell, the empty string when the line is shorter than the header;
cells beyond the header's column count are ignored; and blank or
whitespace-only lines produce no row (the row count equals the number of
non-blank data lines). -/
theorem parseCSV_rows_spec (text : String) :
    ((parseCSV text).length =
      ((csvLines text).drop 1).countP (fun l => !(l.isEmpty || jsTrim l == []))) ∧
    (∀ row ∈ parseCSV text,
      (row.map Prod.fst).Nodup ∧
      ∀ kq, kq ∈ row.map Prod.fst ↔
        ∃ j, j < (headerOf text).length ∧ effKey (headerOf text) j = kq) ∧
    (∀ (hd cols : List String) (j : Nat), j < hd.length →
      (∀ j2, j < j2 → j2 < hd.length → effKey hd j2 ≠ effKey hd j) →
      (buildRow hd cols).lookup (effKey hd j) = some (cols.getD j "")) ∧
    (∀ hd cols : List String, buildRow hd cols = buildRow hd (cols.take hd.length)) := by
  refine ⟨?_, ?_, fun hd cols j hj hlast => buildRow_lookup_last hd cols j hj hlast,
    fun hd cols => buildRow_take hd cols⟩
  · cases hl : csvLines text with
    | nil =>
      have hp : parseCSV text = [] := by unfold parseCSV; rw [hl]
      rw [hp]
      rfl
    | cons hline rest =>
      rw [parseCSV_eq_filterMap text hline rest hl, length_filterMap_countP]
      simp only [List.drop_succ_cons, List.drop_zero]
      apply List.countP_congr
      intro line _
      by_cases hb : (line.isEmpty || jsTrim line == []) = true
      · simp [hb]
      · simp [hb]
  · intro row hrow
    cases hl : csvLines text with
    | nil =>
      have hp : parseCSV text = [] := by unfold parseCSV; rw [hl]
      rw [hp] at hrow
      cases hrow
    | cons hline rest =>
      rw [parseCSV_eq_filterMap text hline rest hl] at hrow
      rcases List.mem_filterMap.1 hrow with ⟨line, _, hline2⟩
      by_cases hb : (line.isEmpty || jsTrim line == []) = true
      · rw [if_pos hb] at hline2
        cases hline2
      · rw [if_neg hb] at hline2
        simp only [Option.some.injEq] at hline2
        subst hline2
        exact buildRow_keys (headerOf text) (splitLine (csvDelim text) line)

/-- C9 counterexample to "exactly one entry per header column": a duplicated
header name (`a,a`) yields rows with a single entry against two header
columns, holding the last duplicate's value. -/
theorem parseCSV_rows_counterexample :
    parseCSV "a,a\n1,2" = [[("a", "2")]] ∧
    (headerOf "a,a\n1,2").length = 2 ∧ (1 : Nat) ≠ 2 := by
  refine ⟨?_, by decide, by decide⟩
  decide

/-- C9 witness: a short data line fills its missing cell with the empty
string, and a CSV with a whitespace-only line produces a single row. -/
theorem parseCSV_rows_spec_witness :
    (buildRow ["a", "b"] ["1"]).lookup (effKey ["a", "b"] 1) = some "" ∧
    (parseCSV "a,b\n1,2\n \n").length = 1 := by
  constructor
  · exact (parseCSV_rows_spec "").2.2.1 ["a", "b"] ["1"] 1 (by decide)
      (fun j2 h1 h2 => by have h3 : j2 < 2 := h2; omega)
  · rw [(parseCSV_rows_spec "a,b\n1,2\n \n").1]
    decide

/-! ## C2: sourcing state machine -/

theorem except_bind_ok {α β : Type} (x : Except String α) (f : α → Except String β)
    (b : β) (h : (x >>= f) = .ok b) : ∃ a, x = .ok a ∧ f a = .ok b := by
  cases x with
  | error e => simp [bind, Except.bind] at h
  | ok a => exact ⟨a, rfl, by simpa [bind, Except.bind] using h⟩

/-- C2 (amended): sourcing tries the local official file, the remote official
URL, and the Overpass fallback, in that order, with these provisos forced by
the code: the remote state is reached only when *no local candidate file
exists* (a local parse failure throws and falls directly through to
Overpass, skipping the remote state), and a state that yields a successfully
parsed collection — empty or not — terminates the search and provides
`meta.source`. Absence of the local file advances to the remote state,
absence of the URL advances to Overpass, and the run is fatal exactly when
the official stage produced nothing and the Overpass fallback itself fails. -/
theorem sourcing_state_machine (env : SchoolsEnv) (dmap : List (String × String))
    (hdm : buildDistrictToRegionMap env.regionsJson = .ok dmap) :
    (∀ src fc, tryLoadOfficialDataset env dmap = .ok (some (src, fc)) →
      ((env.localFile.isSome = true ∧ src = "official-local") ∨
       (env.localFile = none ∧ env.officialURL.isSome = true ∧
         (src = "official-remote" ∨ src = "official-remote-csv")))) ∧
    (env.localFile = none → env.officialURL = none →
      tryLoadOfficialDataset env dmap = .ok none) ∧
    (∀ src fc, tryLoadOfficialDataset env dmap = .ok (some (src, fc)) →
      mainSourcing env = .ok (src, fc)) ∧
    ((tryLoadOfficialDataset env dmap = .ok none ∨
       ∃ e, tryLoadOfficialDataset env dmap = .error e) →
      ((∃ fs2 fc, fetchOverpass env = .ok fs2 ∧
          enrichFeatureCollection fs2 dmap = .ok fc ∧
          mainSourcing env = .ok ("overpass", fc)) ∨
       (∃ e, mainSourcing env = .error e ∧
         (fetchOverpass env = .error e ∨
          ∃ fs2, fetchOverpass env = .ok fs2 ∧
            enrichFeatureCollection fs2 dmap = .error e)))) := by
  refine ⟨?_, ?_, ?_, ?_⟩
  · intro src fc h
    cases hlf : env.localFile with
    | some pair =>
      obtain ⟨cext, raw⟩ := pair
      left
      refine ⟨rfl, ?_⟩
      simp only [tryLoadOfficialDataset, hlf] at h
      by_cases hext : (cext == ".csv") = true
      · rw [if_pos hext] at h
        obtain ⟨fc2, _, h⟩ := except_bind_ok _ _ _ h
        obtain ⟨fc3, _, h⟩ := except_bind_ok _ _ _ h
        simp only [Except.ok.injEq, Option.some.injEq, Prod.mk.injEq] at h
        exact h.1.symm
      · rw [if_neg hext] at h
        cases hjp : env.jsonParse raw with
        | none => simp only [hjp] at h; exact (Except.noConfusion h)
        | some j =>
          simp only [hjp] at h
          by_cases htj : truthy j = true
          · rw [if_pos htj] at h
            obtain ⟨fc2, _, h⟩ := except_bind_ok _ _ _ h
            obtain ⟨fc3, _, h⟩ := except_bind_ok _ _ _ h
            simp only [Except.ok.injEq, Option.some.injEq, Prod.mk.injEq] at h
            exact h.1.symm
          · rw [if_neg htj] at h
            exact (Except.noConfusion h)
    | none =>
      right
      simp only [tryLoadOfficialDataset, hlf] at h
      cases hurl : env.officialURL with
      | none =>
        simp only [hurl] at h
        simp at h
      | some url =>
        simp only [hurl] at h
        refine ⟨rfl, rfl, ?_⟩
        obtain ⟨text, _, h⟩ := except_bind_ok _ _ _ h
        have hcsv : ∀ (hr : tryLoadOfficialDataset.remoteCSV text dmap = .ok (some (src, fc))),
            src = "official-remote" ∨ src = "official-remote-csv" := by
          intro hr
          rw [tryLoadOfficialDataset.remoteCSV] at hr
          by_cases hn : (parseCSV text).length > 0
          · rw [if_pos hn] at hr
            obtain ⟨fc2, _, hr⟩ := except_bind_ok _ _ _ hr
            obtain ⟨fc3, _, hr⟩ := except_bind_ok _ _ _ hr
            simp only [Except.ok.injEq, Option.some.injEq, Prod.mk.injEq] at hr
            exact Or.inr hr.1.symm
          · rw [if_neg hn] at hr
            simp at hr
        cases hjp : env.jsonParse text with
        | none =>
          simp only [hjp] at h
          exact hcsv h
        | some j =>
          simp only [hjp] at h
          by_cases htj : truthy j = true
          · rw [if_pos htj] at h
            obtain ⟨fc2, _, h⟩ := except_bind_ok _ _ _ h
            obtain ⟨fc3, _, h⟩ := except_bind_ok _ _ _ h
            simp only [Except.ok.injEq, Option.some.injEq, Prod.mk.injEq] at h
            exact Or.inl h.1.symm
          · rw [if_neg htj] at h
            exact hcsv h
  · intro h1 h2
    rw [tryLoadOfficialDataset, h1, h2]
  · intro src fc h
    rw [mainSourcing]
    rw [hdm]
    simp only [bind, Except.bind, h]
  · intro hdisj
    have hres : (match tryLoadOfficialDataset env dmap with
        | .ok r => r
        | .error _ => (none : Option (String × List JVal))) = none := by
      rcases hdisj with h | ⟨e, h⟩ <;> rw [h]
    rw [mainSourcing, hdm]
    simp only [bind, Except.bind, hres]
    cases hov : fetchOverpass env with
    | error e =>
      right
      exact ⟨e, by simp [bind, Except.bind], Or.inl rfl⟩
    | ok fs2 =>
      cases hen : enrichFeatureCollection fs2 dmap with
      | error e =>
        right
        exact ⟨e, by simp [bind, Except.bind, hen], Or.inr ⟨fs2, rfl, hen⟩⟩
      | ok fc =>
        left
        exact ⟨fs2, fc, rfl, hen, by simp [bind, Except.bind, hen]⟩

/-- C2 counterexample to the original wording: the claim says a local parse
error advances the search to the remote official URL, but in the code the
thrown error is caught by `tryLoadOfficialDataset`'s caller, so the run
falls straight through to Overpass. In `envLocalBroken` the local file is
present but unparseable while the configured remote URL serves a good
FeatureCollection: the run sources from "overpass", yet the very same
remote state, entered directly (no local file), would succeed with
"official-remote". -/
theorem sourcing_skip_remote_counterexample :
    (mainSourcing envLocalBroken).map Prod.fst = .ok "overpass" ∧
    (tryLoadOfficialDataset { envLocalBroken with localFile := none } []).map
      (Option.map Prod.fst) = .ok (some "official-remote") :=
  ⟨rfl, rfl⟩

/-- Witness for `sourcing_state_machine`: in a world with neither a local
file nor a remote URL the official stage yields `none` (and the run falls
back to Overpass). -/
theorem sourcing_state_machine_witness :
    tryLoadOfficialDataset envNoOfficial [] = .ok none :=
  (sourcing_state_machine envNoOfficial [] rfl).2.1 rfl rfl
